import Mathlib

set_option maxRecDepth 4000

/-!
Verification development for the agent-visualization server (`src/src`).

Shallow embedding conventions:
* Timestamps are modelled as natural-number millisecond values.  The source
  stores ISO-8601 strings and compares them through `new Date(...)`, which is a
  monotone bijection onto millisecond values, and compares `Date.now()` values
  directly, so all timestamp comparisons coincide with `Nat`/`Int` comparisons.
* A JS `Map` iterates in insertion order; it is modelled as an association
  list whose operations mirror `Map.get` / `Map.set` / `Map.delete`.
* JS numbers occurring in the model are integers in every execution the
  claims quantify over; they are modelled as `Int` (counters that only grow
  as `Nat`).
* In-place mutation of a record object that is stored in the map is modelled
  by rewriting the list entry at the key under which the object is stored.
-/

namespace AgentViz

/-- `status` field of an `AgentRecord` (src/src/types.ts). -/
inductive Status where
  | running
  | completed
  | errored
deriving DecidableEq

/-- `AgentUsage` (src/src/types.ts). -/
structure AgentUsage where
  total_tokens : Int
  tool_uses : Int
  duration_ms : Int
deriving DecidableEq

/-- `AgentRecord` (src/src/types.ts); timestamps as milliseconds. -/
structure AgentRecord where
  id : String
  session_id : String
  description : String
  prompt : String
  subagent_type : String
  background : Bool
  status : Status
  started_at : Nat
  last_activity : Nat
  ended_at : Option Nat
  duration_ms : Option Int
  error : Option String
  output_preview : Option String
  output_file : Option String
  parent_id : String
  usage : Option AgentUsage
  agentId : Option String := none
deriving DecidableEq

/-- `Message` (src/src/types.ts). -/
structure Message where
  id : String
  from_id : String
  to_id : String
  type : String
  timestamp : Nat
deriving DecidableEq

/-- `SessionUsage` (src/src/types.ts). -/
structure SessionUsage where
  total_tokens : Int
  tool_uses : Int
  duration_ms : Int
  agent_count : Nat
deriving DecidableEq

/-- The zero `SessionUsage`, as initialised in src/src/state.ts. -/
def SessionUsage.zero : SessionUsage := ⟨0, 0, 0, 0⟩

/-- The agent registry: a JS `Map<string, AgentRecord>` in insertion order. -/
abbrev Agents := List (String × AgentRecord)

/-- `Map.get`. -/
def mapGet (l : Agents) (k : String) : Option AgentRecord :=
  match l.find? (fun p => decide (p.1 = k)) with
  | some p => some p.2
  | none => none

/-- `Map.get` keeping the entry (key and record). -/
def mapGetEntry (l : Agents) (k : String) : Option (String × AgentRecord) :=
  l.find? (fun p => decide (p.1 = k))

/-- `Map.set`: replace in place if present, else append. -/
def mapSet (l : Agents) (k : String) (v : AgentRecord) : Agents :=
  if l.any (fun p => decide (p.1 = k)) then
    l.map (fun p => if p.1 = k then (k, v) else p)
  else l ++ [(k, v)]

/-- `Map.delete`. -/
def mapDelete (l : Agents) (k : String) : Agents :=
  l.filter (fun p => decide (p.1 ≠ k))

/-! ### Character classes and literal scanning (JS regexes of src/src/utils.ts
and src/src/routes/event.ts, re-expressed as executable matchers) -/

/-- JS regex `\s` (whitespace class). -/
def isJsSpace (c : Char) : Bool :=
  c = ' ' || c = '\t' || c = '\n' || c = '\r' || c = '\x0b' || c = '\x0c' ||
  c = '\u00A0' || c = '\u1680' || ('\u2000' ≤ c && c ≤ '\u200A') ||
  c = '\u2028' || c = '\u2029' || c = '\u202F' || c = '\u205F' ||
  c = '\u3000' || c = '\uFEFF'

/-- JS regex `\w` (word class `[A-Za-z0-9_]`), used for `\b` boundaries. -/
def isWordChar (c : Char) : Bool :=
  c.isAlpha || c.isDigit || c = '_'

/-- `s.slice(0, n)` — the first `n` characters (kernel-computable form of
`String.take`). -/
def strTake (s : String) (n : Nat) : String := String.mk (s.data.take n)

/-- `s.toLowerCase()` (kernel-computable form of `String.toLower`). -/
def strLower (s : String) : String := String.mk (s.data.map Char.toLower)

/-- Consume a literal prefix, returning the rest on success. -/
def dropLit : List Char → List Char → Option (List Char)
  | [], rest => some rest
  | _ :: _, [] => none
  | a :: as, b :: bs => if a = b then dropLit as bs else none

/-- Does `needle` occur as a prefix of `hay`? -/
def isPrefixList (needle hay : List Char) : Bool :=
  (dropLit needle hay).isSome

/-- Does `needle` occur anywhere in `hay` (JS `/lit/.test`)? -/
def containsSubList (needle : List Char) : List Char → Bool
  | [] => isPrefixList needle []
  | c :: cs => isPrefixList needle (c :: cs) || containsSubList needle cs

/-- Suffix after the first (leftmost) occurrence of `needle`. -/
def afterFirst (needle : List Char) : List Char → Option (List Char)
  | [] => dropLit needle []
  | c :: cs =>
    match dropLit needle (c :: cs) with
    | some rest => some rest
    | none => afterFirst needle cs

/-- Prefix before the first (leftmost) occurrence of `needle`
(the lazy capture of `([\s\S]*?)` followed by `needle`). -/
def upToFirst (needle : List Char) : List Char → Option (List Char)
  | [] => if (dropLit needle []).isSome then some [] else none
  | c :: cs =>
    if (dropLit needle (c :: cs)).isSome then some []
    else
      match upToFirst needle cs with
      | some pre => some (c :: pre)
      | none => none

/-- Attempt `lit[:\s]+(\d+)` at the current position; the classes `[:\s]` and
`\d` are disjoint, so the greedy runs are deterministic. -/
def tryKeyNumAt (lit : List Char) (cs : List Char) : Option (List Char) :=
  match dropLit lit cs with
  | none => none
  | some rest =>
    let rest2 := rest.dropWhile (fun c => c = ':' || isJsSpace c)
    if rest2.length = rest.length then none
    else
      let digits := rest2.takeWhile (fun c => c.isDigit)
      if digits.isEmpty then none else some digits

/-- Leftmost match of `lit[:\s]+(\d+)`, returning the captured digit run. -/
def scanKeyNum (lit : List Char) : List Char → Option (List Char)
  | [] => tryKeyNumAt lit []
  | c :: cs =>
    match tryKeyNumAt lit (c :: cs) with
    | some d => some d
    | none => scanKeyNum lit cs

/-- `parseInt(digits, 10)` on a nonempty digit run. -/
def digitsToNat (digits : List Char) : Nat :=
  digits.foldl (fun a c => a * 10 + (c.toNat - '0'.toNat)) 0

/-- Attempt `lit\s*(\S+)` at the current position (`\s` and `\S` are
complementary, so the greedy runs are deterministic). -/
def tryKeyValAt (lit : List Char) (cs : List Char) : Option (List Char) :=
  match dropLit lit cs with
  | none => none
  | some rest =>
    let rest2 := rest.dropWhile isJsSpace
    let tok := rest2.takeWhile (fun c => !isJsSpace c)
    if tok.isEmpty then none else some tok

/-- Leftmost match of `lit\s*(\S+)`, returning the captured token. -/
def scanKeyVal (lit : List Char) : List Char → Option (List Char)
  | [] => tryKeyValAt lit []
  | c :: cs =>
    match tryKeyValAt lit (c :: cs) with
    | some t => some t
    | none => scanKeyVal lit cs

/-- `out.match(/output_file:\s*(\S+)/)` / `out.match(/agentId:\s*(\S+)/)`
style extraction (src/src/routes/event.ts). -/
def extractKeyVal (lit : String) (s : String) : Option String :=
  (scanKeyVal lit.toList s.toList).map (fun cs => String.mk cs)

/-- `/Async agent launched/i.test(out)` (src/src/routes/event.ts line 162). -/
def asyncLaunchTest (s : String) : Bool :=
  containsSubList "async agent launched".toList (strLower s).toList

/-- Literal followed by a `\b` boundary. -/
def litEndBoundary (lit : List Char) (cs : List Char) : Bool :=
  match dropLit lit cs with
  | some [] => true
  | some (c :: _) => !isWordChar c
  | none => false

/-- One position of `/\berror[:;\s]|\bfailed\b|\bexception\b|\btraceback\b/`:
`prev` is the character before the position (`none` at the start). -/
def errMatchAt (prev : Option Char) (cs : List Char) : Bool :=
  let bnd := match prev with
    | none => true
    | some c => !isWordChar c
  bnd &&
    ((match dropLit "error".toList cs with
      | some (c :: _) => c = ':' || c = ';' || isJsSpace c
      | _ => false) ||
     litEndBoundary "failed".toList cs ||
     litEndBoundary "exception".toList cs ||
     litEndBoundary "traceback".toList cs)

/-- Scan all positions for the error-word pattern. -/
def errScan (prev : Option Char) : List Char → Bool
  | [] => false
  | c :: cs => errMatchAt prev (c :: cs) || errScan (some c) cs

/-- `/\berror[:;\s]|\bfailed\b|\bexception\b|\btraceback\b/.test(sample)`
(src/src/utils.ts line 32). -/
def testErrorPattern (s : String) : Bool :=
  errScan none s.toList

/-- `isError` (src/src/utils.ts lines 27–35).  `tool_output` is `none` when
the JS value is `null`/`undefined` (behaviourally identical here). -/
def isError (is_error : Option Bool) (tool_output : Option String) : Bool :=
  match is_error with
  | some true => true
  | some false => false
  | none =>
    match tool_output with
    | some s => testErrorPattern (strLower (strTake s 500))
    | none => false

/-- `parseUsage` (src/src/utils.ts lines 4–17). -/
def parseUsage (output : Option String) : Option AgentUsage :=
  match output with
  | none => none
  | some out =>
    let cs := out.toList
    let text :=
      match afterFirst "<usage>".toList cs with
      | some rest =>
        match upToFirst "</usage>".toList rest with
        | some inner => inner
        | none => cs
      | none => cs
    let t := scanKeyNum "total_tokens".toList text
    let u := scanKeyNum "tool_uses".toList text
    let d := scanKeyNum "duration_ms".toList text
    match t, u, d with
    | none, none, none => none
    | _, _, _ =>
      some ⟨((t.map digitsToNat).getD 0 : Nat),
            ((u.map digitsToNat).getD 0 : Nat),
            ((d.map digitsToNat).getD 0 : Nat)⟩

/-! ### JSON values and request-body validation (zod schemas, src/src/types.ts) -/

/-- A JSON value, as delivered by `express.json`. -/
inductive Json where
  | null
  | bool (b : Bool)
  | num (n : Int)
  | str (s : String)
  | arr (xs : List Json)
  | obj (fields : List (String × Json))

/-- Property lookup on a JSON object's field list. -/
def jget (fields : List (String × Json)) (k : String) : Option Json :=
  (fields.find? (fun p => decide (p.1 = k))).map (fun p => p.2)

/-- `value as string || dflt`: a JS string-or-default coercion. -/
def jstrOr (v : Option Json) (dflt : String) : String :=
  match v with
  | some (Json.str s) => if s = "" then dflt else s
  | _ => dflt

/-- JS truthiness of an optional JSON value (`Boolean(x)`). -/
def jtruthy (v : Option Json) : Bool :=
  match v with
  | some (Json.bool b) => b
  | some (Json.num n) => n ≠ 0
  | some (Json.str s) => s ≠ ""
  | some (Json.arr _) => true
  | some (Json.obj _) => true
  | some Json.null => false
  | none => false

/-- `hook_phase` enum. -/
inductive Phase where
  | pre
  | post
deriving DecidableEq

/-- Parsed `HookEventSchema` payload (src/src/types.ts lines 113–121). -/
structure HookEvent where
  session_id : String
  hook_phase : Phase
  tool_name : String
  tool_use_id : Option String
  tool_input : List (String × Json)
  tool_output : Option String
  is_error : Option Bool

/-- Parsed `CompleteEventSchema` payload (src/src/types.ts lines 124–133). -/
structure CompleteEvent where
  description : Option String
  result : Option String
  tokens : Option Int
  tool_uses : Option Int
  duration_ms : Option Int
  is_error : Option Bool
  agent_id : Option String
  tool_use_id : Option String

/-- `z.string().default(d)`: missing yields the default, a non-string fails. -/
def parseStrDefault (fields : List (String × Json)) (k : String) (d : String) :
    Option String :=
  match jget fields k with
  | none => some d
  | some (Json.str s) => some s
  | some _ => none

/-- `z.string().optional()`. -/
def parseStrOpt (fields : List (String × Json)) (k : String) :
    Option (Option String) :=
  match jget fields k with
  | none => some none
  | some (Json.str s) => some (some s)
  | some _ => none

/-- `z.boolean().optional()`. -/
def parseBoolOpt (fields : List (String × Json)) (k : String) :
    Option (Option Bool) :=
  match jget fields k with
  | none => some none
  | some (Json.bool b) => some (some b)
  | some _ => none

/-- `z.number().optional()`. -/
def parseNumOpt (fields : List (String × Json)) (k : String) :
    Option (Option Int) :=
  match jget fields k with
  | none => some none
  | some (Json.num n) => some (some n)
  | some _ => none

/-- `HookEventSchema.safeParse` (src/src/types.ts lines 113–121);
`none` is a failed parse. -/
def parseHookEvent : Json → Option HookEvent
  | Json.obj fields => do
    let session_id ← parseStrDefault fields "session_id" ""
    let hook_phase ←
      match jget fields "hook_phase" with
      | some (Json.str "pre") => some Phase.pre
      | some (Json.str "post") => some Phase.post
      | _ => none
    let tool_name ← parseStrDefault fields "tool_name" ""
    let tool_use_id ← parseStrOpt fields "tool_use_id"
    let tool_input ←
      match jget fields "tool_input" with
      | none => some ([] : List (String × Json))
      | some (Json.obj fs) => some fs
      | some _ => none
    let tool_output ←
      match jget fields "tool_output" with
      | none => some (none : Option String)
      | some Json.null => some none
      | some (Json.str s) => some (some s)
      | some _ => none
    let is_error ← parseBoolOpt fields "is_error"
    some ⟨session_id, hook_phase, tool_name, tool_use_id, tool_input,
          tool_output, is_error⟩
  | _ => none

/-- `CompleteEventSchema.safeParse` (src/src/types.ts lines 124–133). -/
def parseCompleteEvent : Json → Option CompleteEvent
  | Json.obj fields => do
    let description ← parseStrOpt fields "description"
    let result ← parseStrOpt fields "result"
    let tokens ← parseNumOpt fields "tokens"
    let tool_uses ← parseNumOpt fields "tool_uses"
    let duration_ms ← parseNumOpt fields "duration_ms"
    let is_error ← parseBoolOpt fields "is_error"
    let agent_id ← parseStrOpt fields "agent_id"
    let tool_use_id ← parseStrOpt fields "tool_use_id"
    some ⟨description, result, tokens, tool_uses, duration_ms, is_error,
          agent_id, tool_use_id⟩
  | _ => none

/-! ### Matching engine (src/src/matching.ts) -/

/-- Candidate filter of `findDeepestRunningAgent`'s loop. -/
def deepestCand (sessionId excludeKey : String) (r : AgentRecord) : Prop :=
  r.id ≠ excludeKey ∧ r.session_id = sessionId ∧ r.status = Status.running

instance (sid ex : String) (r : AgentRecord) : Decidable (deepestCand sid ex r) := by
  unfold deepestCand; infer_instance

/-- Loop of `findDeepestRunningAgent` (src/src/matching.ts lines 70–78):
keep the best (latest `started_at`) candidate seen so far. -/
def findDeepestRun (sid ex : String) : List (String × AgentRecord) →
    Option AgentRecord → Option AgentRecord
  | [], best => best
  | p :: rest, best =>
    let best' :=
      if deepestCand sid ex p.2 then
        match best with
        | none => some p.2
        | some b => if b.started_at < p.2.started_at then some p.2 else some b
      else best
    findDeepestRun sid ex rest best'

/-- `findDeepestRunningAgent` (src/src/matching.ts lines 65–80). -/
def findDeepestRunningAgent (agents : Agents) (sessionId excludeKey : String) :
    Option AgentRecord :=
  findDeepestRun sessionId excludeKey agents none

/-- Tier-1 filter of `findTaskOutputAgent`: a running background record whose
`agentId` equals the task id. -/
def taskIdCand (taskId : String) (r : AgentRecord) : Prop :=
  r.status = Status.running ∧ r.background = true ∧ r.agentId = some taskId

instance (t : String) (r : AgentRecord) : Decidable (taskIdCand t r) := by
  unfold taskIdCand; infer_instance

/-- Fallback filter of `findTaskOutputAgent`: a running background record in
the same session. -/
def oldestBgCand (sessionId : String) (r : AgentRecord) : Prop :=
  r.status = Status.running ∧ r.background = true ∧ r.session_id = sessionId

instance (sid : String) (r : AgentRecord) : Decidable (oldestBgCand sid r) := by
  unfold oldestBgCand; infer_instance

/-- Fallback loop of `findTaskOutputAgent` (src/src/matching.ts lines 51–58):
keep the oldest (smallest `started_at`) running background agent in the
session.  Carries whole entries so the caller knows the map key of the
returned (aliased) record. -/
def findOldestBg (sid : String) : List (String × AgentRecord) →
    Option (String × AgentRecord) → Option (String × AgentRecord)
  | [], oldest => oldest
  | p :: rest, oldest =>
    let oldest' :=
      if oldestBgCand sid p.2 then
        match oldest with
        | none => some p
        | some b => if p.2.started_at < b.2.started_at then some p else some b
      else oldest
    findOldestBg sid rest oldest'

/-- `findTaskOutputAgent` (src/src/matching.ts lines 38–60), returning the
entry so the caller can rewrite the record under its map key (JS mutates the
returned object, which is aliased into the map). -/
def findTaskOutputAgentEntry (agents : Agents) (taskId sessionId : String) :
    Option (String × AgentRecord) :=
  match agents.find? (fun p => decide (taskIdCand taskId p.2)) with
  | some p => some p
  | none => findOldestBg sessionId agents none

/-- `findTaskOutputAgent` (src/src/matching.ts lines 38–60). -/
def findTaskOutputAgent (agents : Agents) (taskId sessionId : String) :
    Option AgentRecord :=
  (findTaskOutputAgentEntry agents taskId sessionId).map (fun p => p.2)

/-- `findMatchingAgent` (src/src/matching.ts lines 8–32), returning the entry.
Tier 1: `tool_use_id` as map key, filtered to running (a non-running hit
falls through).  Tier 2: `agentId`, filtered to running. -/
def findMatchingAgentEntry (agents : Agents)
    (toolUseId agentId : Option String) : Option (String × AgentRecord) :=
  let tier1 : Option (String × AgentRecord) :=
    match toolUseId with
    | some t =>
      if t = "" then none
      else
        match mapGetEntry agents t with
        | some p => if p.2.status = Status.running then some p else none
        | none => none
    | none => none
  match tier1 with
  | some p => some p
  | none =>
    match agentId with
    | some a =>
      if a = "" then none
      else agents.find? (fun p =>
        decide (p.2.status = Status.running) && decide (p.2.agentId = some a))
    | none => none

/-! ### Server state (src/src/state.ts) -/

/-- The configuration values the embedded logic reads (src/src/config.ts is
not part of the tracked sources; the handlers only consume these two fields,
so they are passed explicitly — spec defaults: message cap 200, controller
recency window 30 000 ms). -/
structure Config where
  maxMessages : Nat
  bossActiveMs : Nat
deriving DecidableEq

/-- The process-wide mutable state of src/src/state.ts.  The single-shot
auto-reset timer is modelled by the flag `autoResetArmed` (the `{idle, armed}`
machine); persistence and SSE fan-out are side-effecting mirrors with no
influence on this state. -/
structure ServerState where
  agents : Agents
  messages : List Message
  messageCounter : Nat
  sessionUsage : SessionUsage
  lastEventTime : Nat
  lastCompletionTime : Nat
  autoResetArmed : Bool
deriving DecidableEq

/-- The state at process start, before any event. -/
def ServerState.initial : ServerState :=
  ⟨[], [], 0, SessionUsage.zero, 0, 0, false⟩

/-- Diagnostic reason used for restart recovery (src/src/state.ts line 111,
src/src/routes/event.ts line 125). -/
def restartErrorMsg : String := "Server restarted while agent was running"

/-- `addMessage` (src/src/state.ts lines 148–163): bump the counter, append
the entry, trim from the front past the cap. -/
def addMessage (cfg : Config) (now : Nat) (from_id to_id ty : String)
    (s : ServerState) : ServerState :=
  let c := s.messageCounter + 1
  let entry : Message := ⟨Nat.repr c, from_id, to_id, ty, now⟩
  let msgs := s.messages ++ [entry]
  let msgs :=
    if msgs.length > cfg.maxMessages then
      msgs.drop (msgs.length - cfg.maxMessages)
    else msgs
  { s with messages := msgs, messageCounter := c }

/-- `resetState` (src/src/state.ts lines 259–278): clears agents, messages,
counters and `lastEventTime`; `lastCompletionTime` and the timer are
untouched. -/
def resetState (s : ServerState) : ServerState :=
  { s with agents := [], messages := [], messageCounter := 0,
           sessionUsage := SessionUsage.zero, lastEventTime := 0 }

/-- Is any registered agent `running`? -/
def anyRunning (agents : Agents) : Bool :=
  agents.any (fun p => decide (p.2.status = Status.running))

/-- `scheduleAutoReset` (src/src/state.ts lines 282–309): clear the pending
timer, then arm it exactly when no agent is running and the registry is
non-empty. -/
def scheduleAutoReset (s : ServerState) : ServerState :=
  { s with autoResetArmed := !anyRunning s.agents && !s.agents.isEmpty }

/-- `cancelAutoReset` (src/src/state.ts lines 311–317). -/
def cancelAutoReset (s : ServerState) : ServerState :=
  { s with autoResetArmed := false }

/-- The auto-reset timer callback (src/src/state.ts lines 292–307): abort if
an agent is running; re-arm if the controller was active within
`bossActiveMs`; otherwise perform the full reset. -/
def fireAutoReset (cfg : Config) (now : Nat) (s : ServerState) : ServerState :=
  if anyRunning s.agents then
    { s with autoResetArmed := false }
  else if now - s.lastEventTime < cfg.bossActiveMs then
    scheduleAutoReset s
  else
    { resetState s with autoResetArmed := false }

/-- The restart-recovery rewrite applied to each loaded agent
(src/src/state.ts lines 108–114). -/
def fixLoadedRunning (now : Nat) (p : String × AgentRecord) :
    String × AgentRecord :=
  if p.2.status = Status.running then
    (p.1, { p.2 with status := Status.errored, error := some restartErrorMsg,
                     ended_at := some now })
  else p

/-- The agent-loading portion of `loadFromDb` (src/src/state.ts lines
99–114): insert every stored agent under its id, then force any `running`
agent to `errored` with the restart diagnostic. -/
def loadAgentsFromDb (dbAgents : List AgentRecord) (now : Nat)
    (s : ServerState) : ServerState :=
  let inserted := dbAgents.foldl (fun m a => mapSet m a.id a) s.agents
  { s with agents := inserted.map (fixLoadedRunning now) }

/-! ### Route handlers (src/src/routes/event.ts, src/src/routes/complete.ts) -/

/-- Add `u`'s counters into the session aggregate (truthiness-guarded `+=`,
src/src/routes/event.ts lines 59–64 and 196–201). -/
def bumpSessionUsage (su : SessionUsage) (usage : Option AgentUsage) :
    SessionUsage :=
  let su := { su with agent_count := su.agent_count + 1 }
  match usage with
  | none => su
  | some u =>
    let su := if u.total_tokens ≠ 0 then
        { su with total_tokens := su.total_tokens + u.total_tokens } else su
    let su := if u.tool_uses ≠ 0 then
        { su with tool_uses := su.tool_uses + u.tool_uses } else su
    if u.duration_ms ≠ 0 then
        { su with duration_ms := su.duration_ms + u.duration_ms } else su

/-- `parent_id || '__user__'`. -/
def parentOrUser (parent_id : String) : String :=
  if parent_id = "" then "__user__" else parent_id

/-- Record finalisation of the TaskOutput branch (src/src/routes/event.ts
lines 43–56): wall-clock duration, overridden by a self-reported usage
duration whenever one is present (no short-interval guard here). -/
def finalizeTaskOutputRecord (now : Nat) (ev : HookEvent) (r : AgentRecord) :
    AgentRecord :=
  let errored := isError ev.is_error ev.tool_output
  let usage := parseUsage ev.tool_output
  let wall : Int := (now : Int) - (r.started_at : Int)
  let r1 : AgentRecord :=
    { r with last_activity := now,
             status := if errored then Status.errored else Status.completed,
             ended_at := some now,
             duration_ms := some wall,
             error := match ev.tool_output with
               | some out => if errored then some (strTake out 300) else none
               | none => none,
             output_preview := ev.tool_output.map (fun out => strTake out 2000),
             usage := match usage with
               | some u => some u
               | none => r.usage }
  match usage with
  | some u =>
    if u.duration_ms ≠ 0 then { r1 with duration_ms := some u.duration_ms }
    else r1
  | none => r1

/-- The TaskOutput branch (src/src/routes/event.ts lines 32–71). -/
def handleTaskOutput (cfg : Config) (now : Nat) (ev : HookEvent)
    (s : ServerState) : ServerState :=
  let taskId := jstrOr (jget ev.tool_input "task_id") ""
  match findTaskOutputAgentEntry s.agents taskId ev.session_id with
  | none => s
  | some (k, r) =>
    if r.status ≠ Status.running then s
    else
      let r2 := finalizeTaskOutputRecord now ev r
      let s := { s with agents := mapSet s.agents k r2,
                        lastCompletionTime := now }
      let s := addMessage cfg now r2.id (parentOrUser r2.parent_id) "Response" s
      let s := { s with sessionUsage :=
                   bumpSessionUsage s.sessionUsage (parseUsage ev.tool_output) }
      scheduleAutoReset s

/-- `description` as computed at src/src/routes/event.ts line 73:
`tool_input.description as string || tool_name || ''`. -/
def eventDescription (ev : HookEvent) : String :=
  jstrOr (jget ev.tool_input "description") (if ev.tool_name = "" then "" else ev.tool_name)

/-- `key` as computed at src/src/routes/event.ts line 74:
`tool_use_id || makeKey(session_id, description)`; `mk` abstracts the sha1
content hash `makeKey` (src/src/utils.ts lines 19–25). -/
def eventKey (mk : String → String → String) (ev : HookEvent)
    (description : String) : String :=
  match ev.tool_use_id with
  | some t => if t = "" then mk ev.session_id description else t
  | none => mk ev.session_id description

/-- The pre-phase branch (src/src/routes/event.ts lines 76–117). -/
def handlePre (cfg : Config) (now : Nat) (ev : HookEvent)
    (description key : String) (s : ServerState) : ServerState :=
  let s := cancelAutoReset s
  let hasRunning := anyRunning s.agents
  let s :=
    if !hasRunning && !s.agents.isEmpty &&
        decide (now - s.lastCompletionTime > 60000) then
      resetState s
    else s
  let parent_id :=
    match findDeepestRunningAgent s.agents ev.session_id key with
    | some r => r.id
    | none => "__user__"
  let record : AgentRecord :=
    { id := key
      session_id := ev.session_id
      description := description
      prompt := match jget ev.tool_input "prompt" with
        | some (Json.str p) => strTake p 1500
        | _ => ""
      subagent_type := jstrOr (jget ev.tool_input "subagent_type") "unknown"
      background := jtruthy (jget ev.tool_input "run_in_background")
      status := Status.running
      started_at := now
      last_activity := now
      ended_at := none
      duration_ms := none
      error := none
      output_preview := none
      output_file := match jget ev.tool_input "output_file" with
        | some (Json.str f) => if f = "" then none else some f
        | _ => none
      parent_id := parent_id
      usage := none }
  let s := { s with agents := mapSet s.agents key record }
  addMessage cfg now parent_id key
    (if parent_id = "__user__" then "Prompt" else "TaskCreate") s

/-- Post-phase record resolution (src/src/routes/event.ts lines 120–155):
direct key hit, else re-key a `(session_id, description)` match that is
running or restart-errored, else synthesize a minimal record.  Returns the
updated registry together with the key's current record. -/
def resolvePostRecord (now : Nat) (ev : HookEvent) (description key : String)
    (agents : Agents) : Agents × AgentRecord :=
  match mapGet agents key with
  | some r => (agents, r)
  | none =>
    match agents.find? (fun p =>
        decide (p.2.session_id = ev.session_id) &&
        decide (p.2.description = description) &&
        (decide (p.2.status = Status.running) ||
         (decide (p.2.status = Status.errored) &&
          decide (p.2.error = some restartErrorMsg)))) with
    | some (k0, r) =>
      let r' := { r with id := key }
      (mapSet (mapDelete agents k0) key r', r')
    | none =>
      let r : AgentRecord :=
        { id := key
          session_id := ev.session_id
          description := description
          prompt := ""
          subagent_type := jstrOr (jget ev.tool_input "subagent_type") "unknown"
          background := jtruthy (jget ev.tool_input "run_in_background")
          status := Status.running
          started_at := now
          last_activity := now
          ended_at := none
          duration_ms := none
          error := none
          output_preview := none
          output_file := none
          parent_id := "__user__"
          usage := none }
      (mapSet agents key r, r)

/-- `isBgLaunch` (src/src/routes/event.ts lines 160–162). -/
def isBgLaunch (r : AgentRecord) (tool_output : Option String) : Bool :=
  r.background &&
    (match tool_output with
     | none => true
     | some out => asyncLaunchTest out)

/-- Genuine-completion record finalisation of the post-phase branch
(src/src/routes/event.ts lines 171–191): classify, set `ended_at`,
wall-clock `duration_ms` (overridden by the usage duration exactly when the
wall-clock delta is under 1000 ms and a nonzero usage duration exists),
error/preview truncation, `output_file` extraction and usage capture. -/
def finalizePostRecord (now : Nat) (ev : HookEvent) (r1 : AgentRecord) :
    AgentRecord :=
  let errored := isError ev.is_error ev.tool_output
  let usage := parseUsage ev.tool_output
  let wall : Int := (now : Int) - (r1.started_at : Int)
  let r2 : AgentRecord :=
    { r1 with status := if errored then Status.errored else Status.completed,
              ended_at := some now,
              duration_ms := some wall,
              error := match ev.tool_output with
                | some out => if errored then some (strTake out 300) else none
                | none => none,
              output_preview := ev.tool_output.map (fun out => strTake out 2000) }
  let r3 :=
    match ev.tool_output with
    | some out =>
      match extractKeyVal "output_file:" out with
      | some f => { r2 with output_file := some f }
      | none => r2
    | none => r2
  let r4 := match usage with
    | some u => { r3 with usage := some u }
    | none => r3
  match usage with
  | some u =>
    if wall < 1000 ∧ u.duration_ms ≠ 0 then
      { r4 with duration_ms := some u.duration_ms }
    else r4
  | none => r4

/-- The post-phase branch (src/src/routes/event.ts lines 119–206). -/
def handlePost (cfg : Config) (now : Nat) (ev : HookEvent)
    (description key : String) (s : ServerState) : ServerState :=
  let resolved := resolvePostRecord now ev description key s.agents
  let agents0 := resolved.1
  let r0 := resolved.2
  let r1 := { r0 with last_activity := now }
  if isBgLaunch r1 ev.tool_output then
    let r2 :=
      match ev.tool_output with
      | some out =>
        let r2a := match extractKeyVal "output_file:" out with
          | some f => { r1 with output_file := some f }
          | none => r1
        match extractKeyVal "agentId:" out with
        | some a => { r2a with agentId := some a }
        | none => r2a
      | none => r1
    let s := { s with agents := mapSet agents0 key r2 }
    scheduleAutoReset s
  else
    let r5 := finalizePostRecord now ev r1
    let s := { s with agents := mapSet agents0 key r5,
                      lastCompletionTime := now }
    let s := addMessage cfg now key (parentOrUser r5.parent_id) "Response" s
    let s := { s with sessionUsage :=
                 bumpSessionUsage s.sessionUsage (parseUsage ev.tool_output) }
    scheduleAutoReset s

/-- The `/event` handler body after a successful parse
(src/src/routes/event.ts lines 21–209). -/
def handleHookEvent (cfg : Config) (mk : String → String → String) (now : Nat)
    (ev : HookEvent) (s : ServerState) : ServerState :=
  let s := { s with lastEventTime := now }
  if ev.tool_name ≠ "Task" ∧ ev.tool_name ≠ "TaskOutput" then s
  else if ev.tool_name = "TaskOutput" ∧ ev.hook_phase = Phase.post then
    handleTaskOutput cfg now ev s
  else
    let description := eventDescription ev
    let key := eventKey mk ev description
    match ev.hook_phase with
    | Phase.pre => handlePre cfg now ev description key s
    | Phase.post => handlePost cfg now ev description key s

/-- `POST /event` (src/src/routes/event.ts lines 14–210): validate, then
process; the second component is the HTTP status code. -/
def handleEvent (cfg : Config) (mk : String → String → String) (now : Nat)
    (body : Json) (s : ServerState) : ServerState × Nat :=
  match parseHookEvent body with
  | none => (s, 400)
  | some ev => (handleHookEvent cfg mk now ev s, 200)

/-- `POST /complete` (src/src/routes/complete.ts lines 12–53).  Note
`setLastEventTime` runs before validation. -/
def handleComplete (cfg : Config) (now : Nat) (body : Json)
    (s : ServerState) : ServerState × Nat :=
  let s := { s with lastEventTime := now }
  match parseCompleteEvent body with
  | none => (s, 400)
  | some ev =>
    match findMatchingAgentEntry s.agents ev.tool_use_id ev.agent_id with
    | none => (s, 200)
    | some (k, r) =>
      let errored := ev.is_error = some true
      let r' : AgentRecord :=
        { r with
            status := if errored then Status.errored else Status.completed,
            ended_at := some now,
            duration_ms := some (match ev.duration_ms with
              | some d => if d ≠ 0 then d else (now : Int) - (r.started_at : Int)
              | none => (now : Int) - (r.started_at : Int)),
            output_preview := ev.result.map (fun out => strTake out 2000),
            error := if errored then ev.result.map (fun out => strTake out 300)
                     else none,
            usage := some ⟨ev.tokens.getD 0, ev.tool_uses.getD 0,
                           ev.duration_ms.getD 0⟩ }
      let su := { s.sessionUsage with
                    agent_count := s.sessionUsage.agent_count + 1 }
      let su := match ev.tokens with
        | some t => if t ≠ 0 then { su with total_tokens := su.total_tokens + t }
                    else su
        | none => su
      let su := match ev.tool_uses with
        | some t => if t ≠ 0 then { su with tool_uses := su.tool_uses + t }
                    else su
        | none => su
      let su := match ev.duration_ms with
        | some d => if d ≠ 0 then { su with duration_ms := su.duration_ms + d }
                    else su
        | none => su
      let s := { s with agents := mapSet s.agents k r',
                        lastCompletionTime := now, sessionUsage := su }
      let s := addMessage cfg now r'.id (parentOrUser r'.parent_id) "Response" s
      (scheduleAutoReset s, 200)

/-! ### Concrete sample data used by witnesses and counterexamples -/

/-- Spec-default configuration: message cap 200, 30 s controller window. -/
def cfgD : Config := ⟨200, 30000⟩

/-- A stand-in for the sha1-based `makeKey` in concrete evaluations (the
claims under study never depend on the hash's value, only on it being a
function of session and description). -/
def mkD : String → String → String := fun s d => s ++ "|" ++ d

/-- A plain running foreground agent. -/
def recRunning : AgentRecord :=
  { id := "a1", session_id := "s1", description := "d1", prompt := "",
    subagent_type := "worker", background := false, status := Status.running,
    started_at := 100, last_activity := 100, ended_at := none,
    duration_ms := none, error := none, output_preview := none,
    output_file := none, parent_id := "__user__", usage := none }

/-- A completed agent. -/
def recCompleted : AgentRecord :=
  { recRunning with
    id := "c1", status := Status.completed,
    ended_at := some 200, duration_ms := some 100 }

/-- A running background agent with a known background id. -/
def recBgRunning : AgentRecord :=
  { recRunning with id := "b1", background := true, agentId := some "bg1" }

/-- An agent marked errored by restart recovery. -/
def recRestartErrored : AgentRecord :=
  { recRunning with
    id := "k1", status := Status.errored, error := some restartErrorMsg }

/-! ### Decimal representation: auxiliary digits function used to reason
about `Nat.repr` (`String(messageCounter)` in src/src/state.ts) -/

/-- The decimal digit list of `n`, most significant first. -/
def decDigits (n : Nat) : List Char :=
  if h : n / 10 = 0 then [Nat.digitChar (n % 10)]
  else decDigits (n / 10) ++ [Nat.digitChar (n % 10)]
decreasing_by
  exact Nat.div_lt_self (Nat.pos_of_ne_zero (fun h0 => h (by simp [h0])))
    (by norm_num)

/-- Numeric value of a decimal digit character. -/
def charDigitVal (c : Char) : Nat := c.toNat - '0'.toNat

/-- A pre-phase Task hook event carrying a description and an explicit
correlation id. -/
def preEv (sess desc key : String) : HookEvent :=
  ⟨sess, Phase.pre, "Task", some key,
   [("description", Json.str desc)], none, none⟩

/-- A post-phase Task hook event carrying the same description under a
different correlation id. -/
def postEv (sess desc key : String) (out : Option String)
    (ie : Option Bool) : HookEvent :=
  ⟨sess, Phase.post, "Task", some key,
   [("description", Json.str desc)], out, ie⟩

/-- The record the pre-phase handler creates for `preEv` when the registry
holds no running agent (src/src/routes/event.ts lines 92–111). -/
def prePhaseRecord (now : Nat) (sess desc key : String) : AgentRecord :=
  ⟨key, sess, desc, "", "unknown", false, Status.running, now, now,
   none, none, none, none, none, "__user__", none, none⟩

/-! ### Lemmas: decimal representation -/

theorem toDigitsCore_eq_decDigits :
    ∀ (fuel n : Nat) (ds : List Char), n < fuel →
      Nat.toDigitsCore 10 fuel n ds = decDigits n ++ ds := by
  intro fuel
  induction fuel with
  | zero => intro n ds h; omega
  | succ f ih =>
    intro n ds h
    rw [Nat.toDigitsCore]
    by_cases h0 : n / 10 = 0
    · simp only [h0, if_pos]
      rw [decDigits, dif_pos h0]
      simp
    · simp only [h0, if_neg, if_false]
      have hlt : n / 10 < f := by
        have h1 : n / 10 < n :=
          Nat.div_lt_self (Nat.pos_of_ne_zero (fun hz => h0 (by simp [hz])))
            (by norm_num)
        omega
      rw [ih (n / 10) _ hlt]
      conv_rhs => rw [decDigits]
      rw [dif_neg h0]
      simp

theorem repr_eq_decDigits (n : Nat) : Nat.repr n = (decDigits n).asString := by
  show (Nat.toDigits 10 n).asString = _
  rw [Nat.toDigits, toDigitsCore_eq_decDigits (n + 1) n [] (Nat.lt_succ_self n)]
  simp

theorem charDigitVal_digitChar : ∀ m, m < 10 →
    charDigitVal (Nat.digitChar m) = m := by
  decide

theorem decDigits_val (n : Nat) :
    ∀ a, (decDigits n).foldl (fun acc c => acc * 10 + charDigitVal c) a =
      a * 10 ^ (decDigits n).length + n := by
  induction n using Nat.strong_induction_on with
  | _ n ih =>
    intro a
    rw [decDigits]
    by_cases h0 : n / 10 = 0
    · rw [dif_pos h0]
      have hn : n < 10 := by omega
      simp [charDigitVal_digitChar n hn, Nat.mod_eq_of_lt hn]
    · rw [dif_neg h0]
      have h1 : n / 10 < n :=
        Nat.div_lt_self (Nat.pos_of_ne_zero (fun hz => h0 (by simp [hz])))
          (by norm_num)
      rw [List.foldl_append, ih (n / 10) h1 a]
      simp only [List.foldl_cons, List.foldl_nil, List.length_append,
        List.length_cons, List.length_nil]
      rw [charDigitVal_digitChar (n % 10) (Nat.mod_lt n (by norm_num))]
      calc (a * 10 ^ (decDigits (n / 10)).length + n / 10) * 10 + n % 10
          = a * 10 ^ ((decDigits (n / 10)).length + (0 + 1)) +
              (10 * (n / 10) + n % 10) := by ring
        _ = a * 10 ^ ((decDigits (n / 10)).length + (0 + 1)) + n := by
              rw [Nat.div_add_mod]

theorem decDigits_val0 (n : Nat) :
    (decDigits n).foldl (fun acc c => acc * 10 + charDigitVal c) 0 = n := by
  simpa using decDigits_val n 0

/-- `String(n)` (decimal) is injective: distinct counters give distinct
message ids. -/
theorem natRepr_injective : Function.Injective Nat.repr := by
  intro m n h
  rw [repr_eq_decDigits, repr_eq_decDigits] at h
  have hd : decDigits m = decDigits n := congrArg String.data h
  have hv := decDigits_val0 m
  rw [hd, decDigits_val0] at hv
  omega

/-! ### Lemmas: association-list map operations -/

theorem mapGet_nil (k : String) : mapGet [] k = none := rfl

theorem mapGet_cons (p : String × AgentRecord) (t : Agents) (k : String) :
    mapGet (p :: t) k = if p.1 = k then some p.2 else mapGet t k := by
  unfold mapGet
  rw [List.find?_cons]
  by_cases h : p.1 = k <;> simp [h]

theorem mapGet_set_self (l : Agents) (k : String) (v : AgentRecord) :
    mapGet (mapSet l k v) k = some v := by
  unfold mapSet
  by_cases h : l.any (fun p => decide (p.1 = k)) = true
  · rw [if_pos h]
    induction l with
    | nil => simp at h
    | cons p t ih =>
      rw [List.map_cons]
      by_cases hp : p.1 = k
      · rw [if_pos hp, mapGet_cons]
        simp
      · rw [if_neg hp, mapGet_cons, if_neg hp]
        apply ih
        simpa [hp] using h
  · rw [if_neg h]
    induction l with
    | nil => simp [mapGet_cons]
    | cons p t ih =>
      rw [List.cons_append, mapGet_cons]
      have hp : ¬(p.1 = k) := by
        intro hp
        exact h (by simp [List.any_cons, hp])
      rw [if_neg hp]
      apply ih
      intro habs
      exact h (by simp [List.any_cons]; right; simpa using habs)

theorem mapGet_set_ne (l : Agents) {k k' : String} (v : AgentRecord)
    (h : k' ≠ k) : mapGet (mapSet l k v) k' = mapGet l k' := by
  unfold mapSet
  by_cases ha : l.any (fun p => decide (p.1 = k)) = true
  · rw [if_pos ha]
    clear ha
    induction l with
    | nil => rfl
    | cons p t ih =>
      rw [List.map_cons, mapGet_cons, mapGet_cons]
      by_cases hp : p.1 = k
      · rw [if_pos hp]
        have h1 : ¬((k, v).1 = k') := fun hh => h (hh.symm)
        have h2 : ¬(p.1 = k') := by rw [hp]; exact fun hh => h hh.symm
        rw [if_neg h1, if_neg h2]
        exact ih
      · rw [if_neg hp]
        by_cases hq : p.1 = k'
        · rw [if_pos hq, if_pos hq]
        · rw [if_neg hq, if_neg hq]
          exact ih
  · rw [if_neg ha]
    induction l with
    | nil =>
      simp only [List.nil_append, mapGet_cons, mapGet_nil]
      rw [if_neg (fun hh : (k, v).1 = k' => h hh.symm)]
    | cons p t ih =>
      rw [List.cons_append, mapGet_cons, mapGet_cons]
      by_cases hq : p.1 = k'
      · rw [if_pos hq, if_pos hq]
      · rw [if_neg hq, if_neg hq]
        apply ih
        intro habs
        exact ha (by simp [List.any_cons]; right; simpa using habs)

theorem mapGet_delete_ne (l : Agents) {k k' : String} (h : k' ≠ k) :
    mapGet (mapDelete l k) k' = mapGet l k' := by
  unfold mapDelete
  induction l with
  | nil => rfl
  | cons p t ih =>
    rw [List.filter_cons, mapGet_cons]
    by_cases hp : p.1 = k
    · have h2 : ¬(p.1 = k') := by rw [hp]; exact fun hh => h hh.symm
      rw [if_neg h2]
      simpa [hp] using ih
    · simp only [hp, decide_not, decide_False, Bool.not_false, if_true]
      rw [mapGet_cons]
      by_cases hq : p.1 = k'
      · rw [if_pos hq, if_pos hq]
      · rw [if_neg hq, if_neg hq]
        simpa [decide_not] using ih

theorem mapGet_delete_self (l : Agents) (k : String) :
    mapGet (mapDelete l k) k = none := by
  unfold mapDelete
  induction l with
  | nil => rfl
  | cons p t ih =>
    rw [List.filter_cons]
    by_cases hp : p.1 = k
    · simpa [hp] using ih
    · simp only [hp, decide_not, decide_False, Bool.not_false, if_true]
      rw [mapGet_cons, if_neg hp]
      simpa [decide_not] using ih

/-! ### Lemmas: matching engine loops -/

theorem findDeepestRun_none (sid ex : String) :
    ∀ (l : List (String × AgentRecord)) (best : Option AgentRecord),
      findDeepestRun sid ex l best = none →
      best = none ∧ ∀ p ∈ l, ¬ deepestCand sid ex p.2 := by
  intro l
  induction l with
  | nil =>
    intro best h
    exact ⟨h, by simp⟩
  | cons p t ih =>
    intro best h
    simp only [findDeepestRun] at h
    by_cases hc : deepestCand sid ex p.2
    · rcases ih _ h with ⟨hb, _⟩
      rw [if_pos hc] at hb
      exfalso
      cases best <;> simp at hb
      split at hb <;> simp at hb
    · rw [if_neg hc] at h
      rcases ih _ h with ⟨hb, ht⟩
      refine ⟨hb, ?_⟩
      intro q hq
      rcases List.mem_cons.mp hq with hq | hq
      · rw [hq]; exact hc
      · exact ht q hq

theorem findDeepestRun_some (sid ex : String) :
    ∀ (l : List (String × AgentRecord)) (best : Option AgentRecord)
      (r : AgentRecord), findDeepestRun sid ex l best = some r →
      (best = some r ∨ (deepestCand sid ex r ∧ r ∈ l.map (fun p => p.2))) ∧
      (∀ p ∈ l, deepestCand sid ex p.2 → p.2.started_at ≤ r.started_at) ∧
      (∀ b, best = some b → b.started_at ≤ r.started_at) := by
  intro l
  induction l with
  | nil =>
    intro best r h
    simp only [findDeepestRun] at h
    exact ⟨Or.inl h, by simp, fun b hb => by rw [hb] at h; simp_all⟩
  | cons p t ih =>
    intro best r h
    by_cases hc : deepestCand sid ex p.2
    · cases best with
      | none =>
        rw [show findDeepestRun sid ex (p :: t) none =
            findDeepestRun sid ex t (some p.2) from by
          simp [findDeepestRun, hc]] at h
        rcases ih _ _ h with ⟨h1, h2, h3⟩
        have hpr : p.2.started_at ≤ r.started_at := h3 p.2 rfl
        refine ⟨?_, ?_, ?_⟩
        · rcases h1 with h1 | h1
          · have hp2 : p.2 = r := Option.some_inj.mp h1
            exact Or.inr ⟨hp2 ▸ hc, by simp [← hp2]⟩
          · exact Or.inr ⟨h1.1, by simp [h1.2]⟩
        · intro q hq hcq
          rcases List.mem_cons.mp hq with hq | hq
          · rw [hq]; exact hpr
          · exact h2 q hq hcq
        · intro b hb; cases hb
      | some b0 =>
        by_cases hlt : b0.started_at < p.2.started_at
        · rw [show findDeepestRun sid ex (p :: t) (some b0) =
              findDeepestRun sid ex t (some p.2) from by
            simp [findDeepestRun, hc, hlt]] at h
          rcases ih _ _ h with ⟨h1, h2, h3⟩
          have hpr : p.2.started_at ≤ r.started_at := h3 p.2 rfl
          refine ⟨?_, ?_, ?_⟩
          · rcases h1 with h1 | h1
            · have hp2 : p.2 = r := Option.some_inj.mp h1
              exact Or.inr ⟨hp2 ▸ hc, by simp [← hp2]⟩
            · exact Or.inr ⟨h1.1, by simp [h1.2]⟩
          · intro q hq hcq
            rcases List.mem_cons.mp hq with hq | hq
            · rw [hq]; exact hpr
            · exact h2 q hq hcq
          · intro b hb
            rw [← Option.some_inj.mp hb]
            exact le_trans (le_of_lt hlt) hpr
        · rw [show findDeepestRun sid ex (p :: t) (some b0) =
              findDeepestRun sid ex t (some b0) from by
            simp [findDeepestRun, hc, hlt]] at h
          rcases ih _ _ h with ⟨h1, h2, h3⟩
          have hbr : b0.started_at ≤ r.started_at := h3 b0 rfl
          refine ⟨?_, ?_, ?_⟩
          · rcases h1 with h1 | h1
            · exact Or.inl h1
            · exact Or.inr ⟨h1.1, by simp [h1.2]⟩
          · intro q hq hcq
            rcases List.mem_cons.mp hq with hq | hq
            · rw [hq]
              exact le_trans (le_of_not_lt hlt) hbr
            · exact h2 q hq hcq
          · intro b hb
            rw [← Option.some_inj.mp hb]
            exact hbr
    · rw [show findDeepestRun sid ex (p :: t) best =
          findDeepestRun sid ex t best from by
        simp [findDeepestRun, hc]] at h
      rcases ih _ _ h with ⟨h1, h2, h3⟩
      refine ⟨?_, ?_, h3⟩
      · rcases h1 with h1 | h1
        · exact Or.inl h1
        · exact Or.inr ⟨h1.1, by simp [h1.2]⟩
      · intro q hq hcq
        rcases List.mem_cons.mp hq with hq | hq
        · exact absurd (hq ▸ hcq) hc
        · exact h2 q hq hcq

theorem findOldestBg_none (sid : String) :
    ∀ (l : List (String × AgentRecord))
      (oldest : Option (String × AgentRecord)),
      findOldestBg sid l oldest = none →
      oldest = none ∧ ∀ p ∈ l, ¬ oldestBgCand sid p.2 := by
  intro l
  induction l with
  | nil =>
    intro oldest h
    exact ⟨h, by simp⟩
  | cons p t ih =>
    intro oldest h
    simp only [findOldestBg] at h
    by_cases hc : oldestBgCand sid p.2
    · rcases ih _ h with ⟨hb, _⟩
      rw [if_pos hc] at hb
      exfalso
      cases oldest <;> simp at hb
      split at hb <;> simp at hb
    · rw [if_neg hc] at h
      rcases ih _ h with ⟨hb, ht⟩
      refine ⟨hb, ?_⟩
      intro q hq
      rcases List.mem_cons.mp hq with hq | hq
      · rw [hq]; exact hc
      · exact ht q hq

theorem findOldestBg_some (sid : String) :
    ∀ (l : List (String × AgentRecord))
      (oldest : Option (String × AgentRecord)) (e : String × AgentRecord),
      findOldestBg sid l oldest = some e →
      (oldest = some e ∨ (oldestBgCand sid e.2 ∧ e ∈ l)) ∧
      (∀ p ∈ l, oldestBgCand sid p.2 → e.2.started_at ≤ p.2.started_at) ∧
      (∀ b, oldest = some b → e.2.started_at ≤ b.2.started_at) := by
  intro l
  induction l with
  | nil =>
    intro oldest e h
    simp only [findOldestBg] at h
    exact ⟨Or.inl h, by simp, fun b hb => by rw [hb] at h; simp_all⟩
  | cons p t ih =>
    intro oldest e h
    by_cases hc : oldestBgCand sid p.2
    · cases oldest with
      | none =>
        rw [show findOldestBg sid (p :: t) none =
            findOldestBg sid t (some p) from by
          simp [findOldestBg, hc]] at h
        rcases ih _ _ h with ⟨h1, h2, h3⟩
        have hpr : e.2.started_at ≤ p.2.started_at := h3 p rfl
        refine ⟨?_, ?_, ?_⟩
        · rcases h1 with h1 | h1
          · have hp2 : p = e := Option.some_inj.mp h1
            exact Or.inr ⟨hp2 ▸ hc, by simp [← hp2]⟩
          · exact Or.inr ⟨h1.1, by simp [h1.2]⟩
        · intro q hq hcq
          rcases List.mem_cons.mp hq with hq | hq
          · rw [hq]; exact hpr
          · exact h2 q hq hcq
        · intro b hb; cases hb
      | some b0 =>
        by_cases hlt : p.2.started_at < b0.2.started_at
        · rw [show findOldestBg sid (p :: t) (some b0) =
              findOldestBg sid t (some p) from by
            simp [findOldestBg, hc, hlt]] at h
          rcases ih _ _ h with ⟨h1, h2, h3⟩
          have hpr : e.2.started_at ≤ p.2.started_at := h3 p rfl
          refine ⟨?_, ?_, ?_⟩
          · rcases h1 with h1 | h1
            · have hp2 : p = e := Option.some_inj.mp h1
              exact Or.inr ⟨hp2 ▸ hc, by simp [← hp2]⟩
            · exact Or.inr ⟨h1.1, by simp [h1.2]⟩
          · intro q hq hcq
            rcases List.mem_cons.mp hq with hq | hq
            · rw [hq]; exact hpr
            · exact h2 q hq hcq
          · intro b hb
            rw [← Option.some_inj.mp hb]
            exact le_trans hpr (le_of_lt hlt)
        · rw [show findOldestBg sid (p :: t) (some b0) =
              findOldestBg sid t (some b0) from by
            simp [findOldestBg, hc, hlt]] at h
          rcases ih _ _ h with ⟨h1, h2, h3⟩
          have hbr : e.2.started_at ≤ b0.2.started_at := h3 b0 rfl
          refine ⟨?_, ?_, ?_⟩
          · rcases h1 with h1 | h1
            · exact Or.inl h1
            · exact Or.inr ⟨h1.1, by simp [h1.2]⟩
          · intro q hq hcq
            rcases List.mem_cons.mp hq with hq | hq
            · rw [hq]
              exact le_trans hbr (le_of_not_lt hlt)
            · exact h2 q hq hcq
          · intro b hb
            rw [← Option.some_inj.mp hb]
            exact hbr
    · rw [show findOldestBg sid (p :: t) oldest =
          findOldestBg sid t oldest from by
        simp [findOldestBg, hc]] at h
      rcases ih _ _ h with ⟨h1, h2, h3⟩
      refine ⟨?_, ?_, h3⟩
      · rcases h1 with h1 | h1
        · exact Or.inl h1
        · exact Or.inr ⟨h1.1, by simp [h1.2]⟩
      · intro q hq hcq
        rcases List.mem_cons.mp hq with hq | hq
        · exact absurd (hq ▸ hcq) hc
        · exact h2 q hq hcq

/-! ### Claim C8 -/

/-- C8: `findDeepestRunningAgent(agents, sessionId, excludeKey)` returns a
record with status `running` and matching `session_id`, whose `id` differs
from `excludeKey`, drawn from the registry, and whose `started_at` is
maximal among all such candidates; it returns some record whenever such a
candidate exists, and `none` exactly when no such running record exists. -/
theorem findDeepestRunningAgent_spec (agents : Agents) (sid ex : String) :
    (∀ r, findDeepestRunningAgent agents sid ex = some r →
       r.status = Status.running ∧ r.session_id = sid ∧ r.id ≠ ex ∧
       r ∈ agents.map (fun p => p.2) ∧
       (∀ p ∈ agents, p.2.status = Status.running → p.2.session_id = sid →
          p.2.id ≠ ex → p.2.started_at ≤ r.started_at)) ∧
    ((∀ p ∈ agents, ¬(p.2.status = Status.running ∧ p.2.session_id = sid ∧
        p.2.id ≠ ex)) → findDeepestRunningAgent agents sid ex = none) ∧
    ((∃ p ∈ agents, p.2.status = Status.running ∧ p.2.session_id = sid ∧
        p.2.id ≠ ex) →
       ∃ r, findDeepestRunningAgent agents sid ex = some r) := by
  refine ⟨?_, ?_, ?_⟩
  · intro r h
    rcases findDeepestRun_some sid ex agents none r h with ⟨h1, h2, _⟩
    rcases h1 with h1 | ⟨hc, hm⟩
    · cases h1
    · exact ⟨hc.2.2, hc.2.1, hc.1, hm,
        fun p hp hs hsess hex => h2 p hp ⟨hex, hsess, hs⟩⟩
  · intro hno
    cases h : findDeepestRunningAgent agents sid ex with
    | none => rfl
    | some r =>
      exfalso
      rcases findDeepestRun_some sid ex agents none r h with ⟨h1, _, _⟩
      rcases h1 with h1 | ⟨hc, hm⟩
      · cases h1
      · rcases List.mem_map.mp hm with ⟨p, hp, hpr⟩
        exact hno p hp ⟨hpr ▸ hc.2.2, hpr ▸ hc.2.1, hpr ▸ hc.1⟩
  · intro hex
    cases h : findDeepestRunningAgent agents sid ex with
    | some r => exact ⟨r, rfl⟩
    | none =>
      exfalso
      rcases hex with ⟨p, hp, hc⟩
      exact (findDeepestRun_none sid ex agents none h).2 p hp
        ⟨hc.2.2, hc.2.1, hc.1⟩

/-- Witness for C8 on a one-agent registry. -/
theorem findDeepestRunningAgent_spec_witness :
    (recRunning.status = Status.running ∧ recRunning.session_id = "s1" ∧
     recRunning.id ≠ "zzz" ∧
     recRunning ∈ ([("a1", recRunning)] : Agents).map (fun p => p.2) ∧
     (∀ p ∈ ([("a1", recRunning)] : Agents), p.2.status = Status.running →
        p.2.session_id = "s1" → p.2.id ≠ "zzz" →
        p.2.started_at ≤ recRunning.started_at)) ∧
    (∃ r, findDeepestRunningAgent [("a1", recRunning)] "s1" "zzz" =
       some r) :=
  ⟨(findDeepestRunningAgent_spec [("a1", recRunning)] "s1" "zzz").1
     recRunning (by decide),
   (findDeepestRunningAgent_spec [("a1", recRunning)] "s1" "zzz").2.2
     ⟨("a1", recRunning), by decide, by decide⟩⟩

/-! ### Claim C4 -/

/-- C4: `findTaskOutputAgent(agents, taskId, sessionId)` returns a running
background record whose `agentId` equals `taskId` when one exists; otherwise
it returns a running background record of the given session with minimal
(oldest) `started_at`; otherwise `none`. -/
theorem findTaskOutputAgent_spec (agents : Agents) (taskId sid : String) :
    ((∃ p ∈ agents, taskIdCand taskId p.2) →
       ∃ r, findTaskOutputAgent agents taskId sid = some r ∧
         r.status = Status.running ∧ r.background = true ∧
         r.agentId = some taskId) ∧
    ((∀ p ∈ agents, ¬ taskIdCand taskId p.2) →
       (∀ r, findTaskOutputAgent agents taskId sid = some r →
          r.status = Status.running ∧ r.background = true ∧
          r.session_id = sid ∧ r ∈ agents.map (fun p => p.2) ∧
          (∀ p ∈ agents, p.2.status = Status.running →
             p.2.background = true → p.2.session_id = sid →
             r.started_at ≤ p.2.started_at)) ∧
       ((∃ p ∈ agents, p.2.status = Status.running ∧
           p.2.background = true ∧ p.2.session_id = sid) →
          ∃ r, findTaskOutputAgent agents taskId sid = some r) ∧
       ((∀ p ∈ agents, ¬(p.2.status = Status.running ∧
           p.2.background = true ∧ p.2.session_id = sid)) →
          findTaskOutputAgent agents taskId sid = none)) := by
  constructor
  · intro hex
    cases hf : agents.find? (fun p => decide (taskIdCand taskId p.2)) with
    | none =>
      exfalso
      rcases hex with ⟨p, hp, hc⟩
      have := List.find?_eq_none.mp hf p hp
      simp only [decide_eq_true_eq] at this
      exact this hc
    | some q =>
      have hq := List.find?_some hf
      simp only [decide_eq_true_eq] at hq
      refine ⟨q.2, ?_, hq.1, hq.2.1, hq.2.2⟩
      unfold findTaskOutputAgent findTaskOutputAgentEntry
      rw [hf]
      rfl
  · intro hno
    have hf : agents.find? (fun p => decide (taskIdCand taskId p.2)) = none :=
      List.find?_eq_none.mpr (fun p hp => by
        simp only [decide_eq_true_eq]
        exact hno p hp)
    have hent : findTaskOutputAgentEntry agents taskId sid =
        findOldestBg sid agents none := by
      unfold findTaskOutputAgentEntry
      rw [hf]
    refine ⟨?_, ?_, ?_⟩
    · intro r h
      unfold findTaskOutputAgent at h
      rw [hent] at h
      cases ho : findOldestBg sid agents none with
      | none => rw [ho] at h; cases h
      | some e =>
        rw [ho] at h
        have her : e.2 = r := Option.some_inj.mp h
        rcases findOldestBg_some sid agents none e ho with ⟨h1, h2, _⟩
        rcases h1 with h1 | ⟨hc, hm⟩
        · cases h1
        · refine ⟨her ▸ hc.1, her ▸ hc.2.1, her ▸ hc.2.2, ?_, ?_⟩
          · exact her ▸ List.mem_map.mpr ⟨e, hm, rfl⟩
          · intro p hp hs hb hsess
            exact her ▸ h2 p hp ⟨hs, hb, hsess⟩
    · intro hex2
      cases h : findTaskOutputAgent agents taskId sid with
      | some r => exact ⟨r, rfl⟩
      | none =>
        exfalso
        unfold findTaskOutputAgent at h
        rw [hent] at h
        cases ho : findOldestBg sid agents none with
        | some e => rw [ho] at h; cases h
        | none =>
          rcases hex2 with ⟨p, hp, hc⟩
          exact (findOldestBg_none sid agents none ho).2 p hp
            ⟨hc.1, hc.2.1, hc.2.2⟩
    · intro hnone
      unfold findTaskOutputAgent
      rw [hent]
      cases ho : findOldestBg sid agents none with
      | none => rfl
      | some e =>
        exfalso
        rcases findOldestBg_some sid agents none e ho with ⟨h1, _, _⟩
        rcases h1 with h1 | ⟨hc, hm⟩
        · cases h1
        · exact hnone e hm ⟨hc.1, hc.2.1, hc.2.2⟩

/-- Witness for C4: tier-1 hit on the background agent and the oldest-in-
session fallback when the task id is unknown. -/
theorem findTaskOutputAgent_spec_witness :
    (∃ r, findTaskOutputAgent [("b1", recBgRunning)] "bg1" "s1" = some r ∧
       r.status = Status.running ∧ r.background = true ∧
       r.agentId = some "bg1") ∧
    (recBgRunning.status = Status.running ∧ recBgRunning.background = true ∧
     recBgRunning.session_id = "s1" ∧
     recBgRunning ∈ ([("b1", recBgRunning)] : Agents).map (fun p => p.2) ∧
     (∀ p ∈ ([("b1", recBgRunning)] : Agents), p.2.status = Status.running →
        p.2.background = true → p.2.session_id = "s1" →
        recBgRunning.started_at ≤ p.2.started_at)) ∧
    (∃ r, findTaskOutputAgent [("b1", recBgRunning)] "unknown" "s1" =
       some r) :=
  ⟨(findTaskOutputAgent_spec [("b1", recBgRunning)] "bg1" "s1").1
      (by exact ⟨("b1", recBgRunning), by decide, by decide⟩),
   ((findTaskOutputAgent_spec [("b1", recBgRunning)] "unknown" "s1").2
      (by decide)).1 recBgRunning (by decide),
   ((findTaskOutputAgent_spec [("b1", recBgRunning)] "unknown" "s1").2
      (by decide)).2.1 ⟨("b1", recBgRunning), by decide, by decide⟩⟩

/-! ### Claim C6 -/

/-- C6: after every `addMessage` the log length is at most the configured
cap; the resulting log is the old log plus the new entry with the overflow
dropped from the front (FIFO); the id counter increments and is never reset
by trimming; the new id is the decimal string of the incremented counter and
is never a reuse of an id still in the log; and a log whose ids are the
decimal strings of a strictly increasing sequence bounded by the counter
keeps that shape. -/
theorem addMessage_spec (cfg : Config) (now : Nat) (f t ty : String)
    (s : ServerState) :
    (addMessage cfg now f t ty s).messages.length ≤ cfg.maxMessages ∧
    (addMessage cfg now f t ty s).messages =
      (s.messages ++
        [(⟨Nat.repr (s.messageCounter + 1), f, t, ty, now⟩ : Message)]).drop
        (s.messages.length + 1 - cfg.maxMessages) ∧
    (addMessage cfg now f t ty s).messageCounter = s.messageCounter + 1 ∧
    ((∀ m ∈ s.messages, ∃ k, k ≤ s.messageCounter ∧ m.id = Nat.repr k) →
       Nat.repr (s.messageCounter + 1) ∉ s.messages.map (fun m => m.id)) ∧
    (∀ ns : List Nat, s.messages.map (fun m => m.id) = ns.map Nat.repr →
       ns.Chain' (· < ·) → (∀ k ∈ ns, k ≤ s.messageCounter) →
       ∃ ns' : List Nat,
         (addMessage cfg now f t ty s).messages.map (fun m => m.id) =
           ns'.map Nat.repr ∧
         ns'.Chain' (· < ·) ∧
         (∀ k ∈ ns', k ≤ (addMessage cfg now f t ty s).messageCounter)) := by
  have hmsgs : (addMessage cfg now f t ty s).messages =
      (s.messages ++
        [(⟨Nat.repr (s.messageCounter + 1), f, t, ty, now⟩ : Message)]).drop
        (s.messages.length + 1 - cfg.maxMessages) := by
    unfold addMessage
    by_cases h : (s.messages ++
        [(⟨Nat.repr (s.messageCounter + 1), f, t, ty, now⟩ : Message)]).length >
          cfg.maxMessages
    · simp only [if_pos h]
      congr 1
      rw [List.length_append]
      rfl
    · simp only [if_neg h]
      rw [List.length_append] at h
      have h0 : s.messages.length + 1 - cfg.maxMessages = 0 := by
        simp only [List.length_cons, List.length_nil] at h
        omega
      rw [h0, List.drop_zero]
  have hctr : (addMessage cfg now f t ty s).messageCounter =
      s.messageCounter + 1 := by
    unfold addMessage
    by_cases h : (s.messages ++
        [(⟨Nat.repr (s.messageCounter + 1), f, t, ty, now⟩ : Message)]).length >
          cfg.maxMessages
    · simp only [if_pos h]
    · simp only [if_neg h]
  refine ⟨?_, hmsgs, hctr, ?_, ?_⟩
  · rw [hmsgs, List.length_drop, List.length_append]
    simp only [List.length_cons, List.length_nil]
    omega
  · intro hinv hmem
    rcases List.mem_map.mp hmem with ⟨m, hm, hid⟩
    rcases hinv m hm with ⟨k, hk, hkid⟩
    have : k = s.messageCounter + 1 := natRepr_injective (by rw [← hkid, hid])
    omega
  · intro ns hns hchain hbound
    refine ⟨(ns ++ [s.messageCounter + 1]).drop
      (s.messages.length + 1 - cfg.maxMessages), ?_, ?_, ?_⟩
    · rw [hmsgs, List.map_drop, List.map_drop]
      congr 1
      rw [List.map_append, List.map_append, hns]
      rfl
    · apply List.Chain'.drop
      rw [List.chain'_append]
      refine ⟨hchain, List.chain'_singleton _, ?_⟩
      intro x hx y hy
      have hxns : x ∈ ns := List.mem_of_mem_getLast? hx
      have : y = s.messageCounter + 1 := by
        simp only [List.head?_cons, Option.mem_def, Option.some_inj] at hy
        omega
      have := hbound x hxns
      omega
    · intro k hk
      rw [hctr]
      have hk' : k ∈ ns ++ [s.messageCounter + 1] := List.mem_of_mem_drop hk
      rcases List.mem_append.mp hk' with hk' | hk'
      · exact le_trans (hbound k hk') (Nat.le_succ _)
      · simp only [List.mem_singleton] at hk'
        omega

/-- Witness for C6 at a concrete state with cap 2 and two stored messages. -/
theorem addMessage_spec_witness :
    (addMessage ⟨2, 30000⟩ 9 "x" "y" "Response"
        ⟨[], [⟨"1", "a", "b", "Prompt", 1⟩, ⟨"2", "b", "a", "Response", 2⟩],
         2, SessionUsage.zero, 0, 0, false⟩).messages.length ≤ 2 ∧
    Nat.repr 3 ∉
      ([⟨"1", "a", "b", "Prompt", 1⟩,
        ⟨"2", "b", "a", "Response", 2⟩] : List Message).map (fun m => m.id) ∧
    (∃ ns' : List Nat,
      (addMessage ⟨2, 30000⟩ 9 "x" "y" "Response"
          ⟨[], [⟨"1", "a", "b", "Prompt", 1⟩, ⟨"2", "b", "a", "Response", 2⟩],
           2, SessionUsage.zero, 0, 0, false⟩).messages.map (fun m => m.id) =
        ns'.map Nat.repr ∧
      ns'.Chain' (· < ·) ∧
      (∀ k ∈ ns', k ≤ (addMessage ⟨2, 30000⟩ 9 "x" "y" "Response"
          ⟨[], [⟨"1", "a", "b", "Prompt", 1⟩, ⟨"2", "b", "a", "Response", 2⟩],
           2, SessionUsage.zero, 0, 0, false⟩).messageCounter)) := by
  have h := addMessage_spec ⟨2, 30000⟩ 9 "x" "y" "Response"
    ⟨[], [⟨"1", "a", "b", "Prompt", 1⟩, ⟨"2", "b", "a", "Response", 2⟩],
     2, SessionUsage.zero, 0, 0, false⟩
  have hinv : ∀ m ∈ ([⟨"1", "a", "b", "Prompt", 1⟩,
      ⟨"2", "b", "a", "Response", 2⟩] : List Message),
      ∃ k, k ≤ 2 ∧ m.id = Nat.repr k := by
    intro m hm
    rcases List.mem_cons.mp hm with hm | hm
    · subst hm
      exact ⟨1, by norm_num, rfl⟩
    · rcases List.mem_cons.mp hm with hm | hm
      · subst hm
        exact ⟨2, by norm_num, rfl⟩
      · cases hm
  exact ⟨h.1, h.2.2.2.1 hinv,
    h.2.2.2.2 [1, 2] rfl (by simp [List.chain'_cons, List.chain'_singleton])
      (by decide)⟩

/-! ### Claim C9 -/

/-- C9: after the startup load, no agent is left `running`; every agent that
was stored as `running` comes out `errored` with the fixed restart
diagnostic and a non-null `ended_at`. -/
theorem loadFromDb_spec (dbAgents : List AgentRecord) (now : Nat) :
    (∀ p ∈ (loadAgentsFromDb dbAgents now ServerState.initial).agents,
       p.2.status ≠ Status.running) ∧
    (∀ q ∈ dbAgents.foldl (fun m a => mapSet m a.id a)
        ServerState.initial.agents,
       q.2.status = Status.running →
         (fixLoadedRunning now q).2.status = Status.errored ∧
         (fixLoadedRunning now q).2.error = some restartErrorMsg ∧
         (fixLoadedRunning now q).2.ended_at = some now) := by
  constructor
  · intro p hp
    have hp' : p ∈ (dbAgents.foldl (fun m a => mapSet m a.id a)
        ServerState.initial.agents).map (fixLoadedRunning now) := hp
    rcases List.mem_map.mp hp' with ⟨q, _, hq⟩
    by_cases hrun : q.2.status = Status.running
    · rw [← hq]
      unfold fixLoadedRunning
      rw [if_pos hrun]
      simp
    · rw [← hq]
      unfold fixLoadedRunning
      rw [if_neg hrun]
      exact hrun
  · intro q _ hrun
    unfold fixLoadedRunning
    rw [if_pos hrun]
    exact ⟨rfl, rfl, rfl⟩

/-- Witness for C9: one stored running agent is demoted on load. -/
theorem loadFromDb_spec_witness :
    (fixLoadedRunning 7 ("a1", recRunning)).2.status ≠ Status.running ∧
    (fixLoadedRunning 7 ("a1", recRunning)).2.status = Status.errored ∧
    (fixLoadedRunning 7 ("a1", recRunning)).2.error = some restartErrorMsg ∧
    (fixLoadedRunning 7 ("a1", recRunning)).2.ended_at = some 7 :=
  ⟨(loadFromDb_spec [recRunning] 7).1 (fixLoadedRunning 7 ("a1", recRunning))
      (by decide),
   (loadFromDb_spec [recRunning] 7).2 ("a1", recRunning) (by decide)
      (by decide)⟩

/-! ### Claim C3 -/

/-- C3: when the auto-reset timer fires: with a running agent nothing is
cleared and the machine returns to idle; with no running agent but recent
controller activity (within `bossActiveMs`) nothing is cleared and the timer
is re-armed; otherwise agents, messages and counters are fully reset.  The
timer is armed by `scheduleAutoReset` exactly when no agent is running and
the registry is non-empty. -/
theorem autoReset_spec (cfg : Config) (now : Nat) (s : ServerState)
    (hne : s.agents ≠ []) :
    (anyRunning s.agents = true →
       fireAutoReset cfg now s = { s with autoResetArmed := false }) ∧
    (anyRunning s.agents = false →
       now - s.lastEventTime < cfg.bossActiveMs →
       (fireAutoReset cfg now s).agents = s.agents ∧
       (fireAutoReset cfg now s).messages = s.messages ∧
       (fireAutoReset cfg now s).sessionUsage = s.sessionUsage ∧
       (fireAutoReset cfg now s).autoResetArmed = true) ∧
    (anyRunning s.agents = false →
       ¬(now - s.lastEventTime < cfg.bossActiveMs) →
       (fireAutoReset cfg now s).agents = [] ∧
       (fireAutoReset cfg now s).messages = [] ∧
       (fireAutoReset cfg now s).sessionUsage = SessionUsage.zero ∧
       (fireAutoReset cfg now s).autoResetArmed = false) ∧
    ((scheduleAutoReset s).autoResetArmed = true ↔
       (anyRunning s.agents = false ∧ s.agents ≠ [])) := by
  refine ⟨?_, ?_, ?_, ?_⟩
  · intro hrun
    unfold fireAutoReset
    rw [if_pos hrun]
  · intro hrun hrec
    unfold fireAutoReset
    rw [if_neg (by rw [hrun]; exact Bool.false_ne_true), if_pos hrec]
    unfold scheduleAutoReset
    refine ⟨rfl, rfl, rfl, ?_⟩
    simp only [hrun, Bool.not_false, Bool.true_and, Bool.not_eq_true',
      List.isEmpty_eq_false]
    exact hne
  · intro hrun hrec
    unfold fireAutoReset resetState
    rw [if_neg (by rw [hrun]; exact Bool.false_ne_true), if_neg hrec]
    exact ⟨rfl, rfl, rfl, rfl⟩
  · unfold scheduleAutoReset
    constructor
    · intro h
      simp only [Bool.and_eq_true, Bool.not_eq_true'] at h
      refine ⟨h.1, ?_⟩
      intro habs
      rw [habs] at h
      simp at h
    · intro ⟨h1, h2⟩
      simp only [h1, Bool.not_false, Bool.true_and, Bool.not_eq_true',
        List.isEmpty_eq_false]
      exact h2

/-- Witness for C3 on a one-completed-agent registry: re-arm under recent
activity, full reset without it, abort with a running agent. -/
theorem autoReset_spec_witness :
    (fireAutoReset cfgD 10000 ⟨[("c1", recCompleted)], [], 0,
        SessionUsage.zero, 1000, 0, true⟩).agents = [("c1", recCompleted)] ∧
    (fireAutoReset cfgD 10000 ⟨[("c1", recCompleted)], [], 0,
        SessionUsage.zero, 1000, 0, true⟩).autoResetArmed = true ∧
    (fireAutoReset cfgD 99000 ⟨[("c1", recCompleted)], [], 0,
        SessionUsage.zero, 1000, 0, true⟩).agents = [] ∧
    (fireAutoReset cfgD 99000 ⟨[("c1", recCompleted)], [], 0,
        SessionUsage.zero, 1000, 0, true⟩).sessionUsage = SessionUsage.zero ∧
    fireAutoReset cfgD 99000 ⟨[("a1", recRunning)], [], 0,
        SessionUsage.zero, 1000, 0, true⟩ =
      { (⟨[("a1", recRunning)], [], 0, SessionUsage.zero, 1000, 0, true⟩ :
          ServerState) with autoResetArmed := false } := by
  have h1 := autoReset_spec cfgD 10000 ⟨[("c1", recCompleted)], [], 0,
      SessionUsage.zero, 1000, 0, true⟩ (by decide)
  have h2 := autoReset_spec cfgD 99000 ⟨[("c1", recCompleted)], [], 0,
      SessionUsage.zero, 1000, 0, true⟩ (by decide)
  have h3 := autoReset_spec cfgD 99000 ⟨[("a1", recRunning)], [], 0,
      SessionUsage.zero, 1000, 0, true⟩ (by decide)
  have r1 := h1.2.1 (by decide) (by decide)
  have r2 := h2.2.2.1 (by decide) (by decide)
  exact ⟨r1.1, r1.2.2.2, r2.1, r2.2.2.1, h3.1 (by decide)⟩

/-! ### Lemmas: handler evaluation -/

theorem addMessage_eval (cfg : Config) (now : Nat) (f t ty : String)
    (s : ServerState) :
    addMessage cfg now f t ty s =
      { s with
        messages := (s.messages ++
          [(⟨Nat.repr (s.messageCounter + 1), f, t, ty, now⟩ : Message)]).drop
            (s.messages.length + 1 - cfg.maxMessages),
        messageCounter := s.messageCounter + 1 } := by
  unfold addMessage
  by_cases h : (s.messages ++
      [(⟨Nat.repr (s.messageCounter + 1), f, t, ty, now⟩ : Message)]).length >
        cfg.maxMessages
  · simp only [if_pos h]
    congr 2
    rw [List.length_append]
    rfl
  · simp only [if_neg h]
    rw [List.length_append] at h
    simp only [List.length_cons, List.length_nil] at h
    have h0 : s.messages.length + 1 - cfg.maxMessages = 0 := by omega
    rw [h0, List.drop_zero]

theorem eventKey_some (mk : String → String → String) (ev : HookEvent)
    (desc key : String) (h : ev.tool_use_id = some key) (hk : key ≠ "") :
    eventKey mk ev desc = key := by
  unfold eventKey
  rw [h]
  simp [hk]

theorem handleHookEvent_task_pre (cfg : Config)
    (mk : String → String → String) (now : Nat) (ev : HookEvent)
    (s : ServerState) (hname : ev.tool_name = "Task")
    (hphase : ev.hook_phase = Phase.pre) :
    handleHookEvent cfg mk now ev s =
      handlePre cfg now ev (eventDescription ev)
        (eventKey mk ev (eventDescription ev))
        { s with lastEventTime := now } := by
  have hc1 : ¬(ev.tool_name ≠ "Task" ∧ ev.tool_name ≠ "TaskOutput") := by
    simp [hname]
  have hc2 : ¬(ev.tool_name = "TaskOutput" ∧ ev.hook_phase = Phase.post) := by
    simp [hname]
  unfold handleHookEvent
  rw [if_neg hc1, if_neg hc2, hphase]

theorem handleHookEvent_task_post (cfg : Config)
    (mk : String → String → String) (now : Nat) (ev : HookEvent)
    (s : ServerState) (hname : ev.tool_name = "Task")
    (hphase : ev.hook_phase = Phase.post) :
    handleHookEvent cfg mk now ev s =
      handlePost cfg now ev (eventDescription ev)
        (eventKey mk ev (eventDescription ev))
        { s with lastEventTime := now } := by
  have hc1 : ¬(ev.tool_name ≠ "Task" ∧ ev.tool_name ≠ "TaskOutput") := by
    simp [hname]
  have hc2 : ¬(ev.tool_name = "TaskOutput" ∧ ev.hook_phase = Phase.post) := by
    simp [hname]
  unfold handleHookEvent
  rw [if_neg hc1, if_neg hc2, hphase]

theorem handleHookEvent_taskOutput_post (cfg : Config)
    (mk : String → String → String) (now : Nat) (ev : HookEvent)
    (s : ServerState) (hname : ev.tool_name = "TaskOutput")
    (hphase : ev.hook_phase = Phase.post) :
    handleHookEvent cfg mk now ev s =
      handleTaskOutput cfg now ev { s with lastEventTime := now } := by
  have hc1 : ¬(ev.tool_name ≠ "Task" ∧ ev.tool_name ≠ "TaskOutput") := by
    simp [hname]
  have hc2 : ev.tool_name = "TaskOutput" ∧ ev.hook_phase = Phase.post :=
    ⟨hname, hphase⟩
  unfold handleHookEvent
  rw [if_neg hc1, if_pos hc2]

theorem finalizePostRecord_fields (now : Nat) (ev : HookEvent)
    (r1 : AgentRecord) :
    (finalizePostRecord now ev r1).id = r1.id ∧
    (finalizePostRecord now ev r1).parent_id = r1.parent_id ∧
    (finalizePostRecord now ev r1).session_id = r1.session_id ∧
    (finalizePostRecord now ev r1).status =
      (if isError ev.is_error ev.tool_output then Status.errored
       else Status.completed) ∧
    (finalizePostRecord now ev r1).duration_ms =
      some (match parseUsage ev.tool_output with
        | some u =>
          if (now : Int) - (r1.started_at : Int) < 1000 ∧ u.duration_ms ≠ 0
          then u.duration_ms
          else (now : Int) - (r1.started_at : Int)
        | none => (now : Int) - (r1.started_at : Int)) := by
  unfold finalizePostRecord
  cases hpu : parseUsage ev.tool_output with
  | none =>
    cases ho : ev.tool_output with
    | none => simp
    | some out =>
      cases hex : extractKeyVal "output_file:" out with
      | none => simp [hex]
      | some f => simp [hex]
  | some u =>
    by_cases hcond : (now : Int) - (r1.started_at : Int) < 1000 ∧
        u.duration_ms ≠ 0
    · cases ho : ev.tool_output with
      | none => simp [hcond]
      | some out =>
        cases hex : extractKeyVal "output_file:" out with
        | none => simp [hcond, hex]
        | some f => simp [hcond, hex]
    · cases ho : ev.tool_output with
      | none => simp [hcond]
      | some out =>
        cases hex : extractKeyVal "output_file:" out with
        | none => simp [hcond, hex]
        | some f => simp [hcond, hex]

theorem finalizeTaskOutputRecord_fields (now : Nat) (ev : HookEvent)
    (r : AgentRecord) :
    (finalizeTaskOutputRecord now ev r).id = r.id ∧
    (finalizeTaskOutputRecord now ev r).parent_id = r.parent_id ∧
    (finalizeTaskOutputRecord now ev r).status =
      (if isError ev.is_error ev.tool_output then Status.errored
       else Status.completed) ∧
    (finalizeTaskOutputRecord now ev r).duration_ms =
      some (match parseUsage ev.tool_output with
        | some u =>
          if u.duration_ms ≠ 0 then u.duration_ms
          else (now : Int) - (r.started_at : Int)
        | none => (now : Int) - (r.started_at : Int)) := by
  unfold finalizeTaskOutputRecord
  cases hpu : parseUsage ev.tool_output with
  | none => simp
  | some u =>
    by_cases hd : u.duration_ms ≠ 0
    · simp [hd]
    · simp [hd]

theorem bumpSessionUsage_agent_count (su : SessionUsage)
    (usage : Option AgentUsage) :
    (bumpSessionUsage su usage).agent_count = su.agent_count + 1 := by
  unfold bumpSessionUsage
  cases usage with
  | none => rfl
  | some u =>
    by_cases h1 : u.total_tokens ≠ 0 <;> by_cases h2 : u.tool_uses ≠ 0 <;>
      by_cases h3 : u.duration_ms ≠ 0 <;> simp [h1, h2, h3]

theorem resolvePostRecord_hit (now : Nat) (ev : HookEvent)
    (desc key : String) (agents : Agents) (r : AgentRecord)
    (h : mapGet agents key = some r) :
    resolvePostRecord now ev desc key agents = (agents, r) := by
  unfold resolvePostRecord
  rw [h]

theorem resolvePostRecord_rekey (now : Nat) (ev : HookEvent)
    (desc key : String) (agents : Agents) (k0 : String) (r : AgentRecord)
    (h : mapGet agents key = none)
    (hf : agents.find? (fun p =>
        decide (p.2.session_id = ev.session_id) &&
        decide (p.2.description = desc) &&
        (decide (p.2.status = Status.running) ||
         (decide (p.2.status = Status.errored) &&
          decide (p.2.error = some restartErrorMsg)))) = some (k0, r)) :
    resolvePostRecord now ev desc key agents =
      (mapSet (mapDelete agents k0) key { r with id := key },
       { r with id := key }) := by
  unfold resolvePostRecord
  rw [h, hf]

theorem handlePost_eval (cfg : Config) (now : Nat) (ev : HookEvent)
    (desc key : String) (s : ServerState) (agents0 : Agents)
    (r0 : AgentRecord)
    (hres : resolvePostRecord now ev desc key s.agents = (agents0, r0))
    (hbg : isBgLaunch { r0 with last_activity := now } ev.tool_output =
      false) :
    (handlePost cfg now ev desc key s).agents =
      mapSet agents0 key
        (finalizePostRecord now ev { r0 with last_activity := now }) ∧
    (handlePost cfg now ev desc key s).messages =
      (s.messages ++ [(⟨Nat.repr (s.messageCounter + 1), key,
        parentOrUser r0.parent_id, "Response", now⟩ : Message)]).drop
        (s.messages.length + 1 - cfg.maxMessages) ∧
    (handlePost cfg now ev desc key s).messageCounter =
      s.messageCounter + 1 ∧
    (handlePost cfg now ev desc key s).sessionUsage =
      bumpSessionUsage s.sessionUsage (parseUsage ev.tool_output) ∧
    (handlePost cfg now ev desc key s).lastCompletionTime = now := by
  have hpar : (finalizePostRecord now ev
      { r0 with last_activity := now }).parent_id = r0.parent_id :=
    (finalizePostRecord_fields now ev _).2.1
  have hcond : ¬(isBgLaunch { r0 with last_activity := now }
      ev.tool_output = true) := by
    rw [hbg]
    exact Bool.false_ne_true
  unfold handlePost
  simp only [hres]
  rw [if_neg hcond, addMessage_eval]
  unfold scheduleAutoReset
  simp only [hpar]
  simp

theorem handleTaskOutput_eval (cfg : Config) (now : Nat) (ev : HookEvent)
    (s : ServerState) (k : String) (r : AgentRecord)
    (hmatch : findTaskOutputAgentEntry s.agents
        (jstrOr (jget ev.tool_input "task_id") "") ev.session_id =
        some (k, r))
    (hrun : r.status = Status.running) :
    (handleTaskOutput cfg now ev s).agents =
      mapSet s.agents k (finalizeTaskOutputRecord now ev r) ∧
    (handleTaskOutput cfg now ev s).sessionUsage =
      bumpSessionUsage s.sessionUsage (parseUsage ev.tool_output) ∧
    (handleTaskOutput cfg now ev s).messageCounter =
      s.messageCounter + 1 := by
  unfold handleTaskOutput
  simp only [hmatch]
  rw [if_neg (by simp [hrun])]
  rw [addMessage_eval]
  unfold scheduleAutoReset
  simp

theorem findTaskOutputAgentEntry_eq_none (agents : Agents)
    (taskId sid : String)
    (h : ∀ p ∈ agents, p.2.status ≠ Status.running) :
    findTaskOutputAgentEntry agents taskId sid = none := by
  unfold findTaskOutputAgentEntry
  have hf : agents.find? (fun p => decide (taskIdCand taskId p.2)) = none :=
    List.find?_eq_none.mpr (fun p hp => by
      simp only [decide_eq_true_eq]
      intro hc
      exact h p hp hc.1)
  rw [hf]
  cases ho : findOldestBg sid agents none with
  | none => rfl
  | some e =>
    exfalso
    rcases findOldestBg_some sid agents none e ho with ⟨h1, _, _⟩
    rcases h1 with h1 | ⟨hc, hm⟩
    · cases h1
    · exact h e hm hc.1

theorem handleTaskOutput_noRunning (cfg : Config) (now : Nat)
    (ev : HookEvent) (s : ServerState)
    (h : ∀ p ∈ s.agents, p.2.status ≠ Status.running) :
    handleTaskOutput cfg now ev s = s := by
  unfold handleTaskOutput
  simp only [findTaskOutputAgentEntry_eq_none s.agents
    (jstrOr (jget ev.tool_input "task_id") "") ev.session_id h]

/-! ### Claim C7 -/

/-- C7 counterexample: a `/complete` body failing validation (`tokens` is a
string) is rejected with 400, yet `lastEventTime` has been mutated from 0 to
the request time — `setLastEventTime` runs before `safeParse`
(src/src/routes/complete.ts lines 13–14). -/
theorem completeValidationMutatesTiming :
    (handleComplete cfgD 5 (Json.obj [("tokens", Json.str "x")])
        ServerState.initial).2 = 400 ∧
    (handleComplete cfgD 5 (Json.obj [("tokens", Json.str "x")])
        ServerState.initial).1.lastEventTime = 5 ∧
    ServerState.initial.lastEventTime = 0 :=
  ⟨rfl, rfl, rfl⟩

/-- C7 (amended): a hook event that fails validation is rejected with 400
and mutates nothing; a completion call that fails validation is rejected
with 400 and mutates nothing except `lastEventTime`, which is set before
validation. -/
theorem validationFailure_spec (cfg : Config) (mk : String → String → String)
    (now : Nat) (body : Json) (s : ServerState) :
    (parseHookEvent body = none → handleEvent cfg mk now body s = (s, 400)) ∧
    (parseCompleteEvent body = none →
       handleComplete cfg now body s =
         ({ s with lastEventTime := now }, 400)) := by
  constructor
  · intro h
    unfold handleEvent
    rw [h]
  · intro h
    unfold handleComplete
    rw [h]

/-- Witness for the amended C7: a body that fails both schemas (`hook_phase`
missing, `tokens` non-numeric) mutates nothing through `/event` and only
`lastEventTime` through `/complete`. -/
theorem validationFailure_spec_witness :
    handleEvent cfgD mkD 5 (Json.obj [("tokens", Json.str "x")])
      ServerState.initial = (ServerState.initial, 400) ∧
    handleComplete cfgD 5 (Json.obj [("tokens", Json.str "x")])
      ServerState.initial =
        ({ ServerState.initial with lastEventTime := 5 }, 400) :=
  ⟨(validationFailure_spec cfgD mkD 5 (Json.obj [("tokens", Json.str "x")])
      ServerState.initial).1 rfl,
   (validationFailure_spec cfgD mkD 5 (Json.obj [("tokens", Json.str "x")])
      ServerState.initial).2 rfl⟩

/-! ### Claim C10 -/

/-- C10 counterexample: an out-of-band completion signal with no `is_error`
and result text `"failed"` is recorded as `completed`, although the regex
classifier would call it an error — `/complete` never applies the regex
(src/src/routes/complete.ts line 25). -/
theorem completeIgnoresOutputText :
    ((mapGet (handleComplete cfgD 500
        (Json.obj [("result", Json.str "failed"),
                   ("tool_use_id", Json.str "a1")])
        ⟨[("a1", recRunning)], [], 0, SessionUsage.zero, 0, 0,
         false⟩).1.agents "a1").map (fun r => r.status) =
      some Status.completed) ∧
    isError none (some "failed") = true := by
  constructor
  · rfl
  · decide

/-- C10 (amended): with no explicit `is_error`, a hook completion — through
the generic Task post-phase path or through the TaskOutput channel — is
classified by `isError`: errored exactly when the first 500 characters of a
string output, lowercased, match the error-word regex, and never for a
non-string output; the out-of-band `/complete` channel instead classifies
errored only on an explicit `is_error === true`, ignoring the output text. -/
theorem errorClassification_spec :
    (∀ (cfg : Config) (mk : String → String → String) (now : Nat)
       (ev : HookEvent) (s : ServerState) (key : String) (r : AgentRecord),
       ev.tool_name = "Task" → ev.hook_phase = Phase.post →
       ev.tool_use_id = some key → key ≠ "" →
       mapGet s.agents key = some r → r.background = false →
       (mapGet (handleHookEvent cfg mk now ev s).agents key).map
           (fun q => q.status) =
         some (if isError ev.is_error ev.tool_output then Status.errored
               else Status.completed)) ∧
    (∀ (cfg : Config) (mk : String → String → String) (now : Nat)
       (ev : HookEvent) (s : ServerState) (k : String) (r : AgentRecord),
       ev.tool_name = "TaskOutput" → ev.hook_phase = Phase.post →
       findTaskOutputAgentEntry s.agents
           (jstrOr (jget ev.tool_input "task_id") "") ev.session_id =
         some (k, r) →
       r.status = Status.running →
       (mapGet (handleHookEvent cfg mk now ev s).agents k).map
           (fun q => q.status) =
         some (if isError ev.is_error ev.tool_output then Status.errored
               else Status.completed)) ∧
    (∀ out : Option String,
       isError none out = (match out with
         | some str => testErrorPattern (strLower (strTake str 500))
         | none => false)) ∧
    (∀ (cfg : Config) (now : Nat) (body : Json) (ev : CompleteEvent)
       (s : ServerState) (k : String) (r : AgentRecord),
       parseCompleteEvent body = some ev → ev.is_error = none →
       findMatchingAgentEntry s.agents ev.tool_use_id ev.agent_id =
         some (k, r) →
       (mapGet (handleComplete cfg now body s).1.agents k).map
           (fun q => q.status) = some Status.completed) := by
  refine ⟨?_, ?_, ?_, ?_⟩
  · intro cfg mk now ev s key r hname hphase htuid hk hget hbgr
    rw [handleHookEvent_task_post cfg mk now ev s hname hphase,
      eventKey_some mk ev (eventDescription ev) key htuid hk]
    have hres : resolvePostRecord now ev (eventDescription ev) key
        ({ s with lastEventTime := now }).agents =
        (({ s with lastEventTime := now }).agents, r) :=
      resolvePostRecord_hit now ev (eventDescription ev) key _ r hget
    have hbg : isBgLaunch { r with last_activity := now } ev.tool_output =
        false := by
      unfold isBgLaunch
      simp [hbgr]
    have heval := handlePost_eval cfg now ev (eventDescription ev) key
      { s with lastEventTime := now } _ r hres hbg
    rw [heval.1, mapGet_set_self, Option.map_some',
      (finalizePostRecord_fields now ev _).2.2.2.1]
  · intro cfg mk now ev s k r hname hphase hmatch hrun
    rw [handleHookEvent_taskOutput_post cfg mk now ev s hname hphase]
    have hmatch' : findTaskOutputAgentEntry
        ({ s with lastEventTime := now }).agents
        (jstrOr (jget ev.tool_input "task_id") "") ev.session_id =
        some (k, r) := hmatch
    have heval := handleTaskOutput_eval cfg now ev
      { s with lastEventTime := now } k r hmatch' hrun
    rw [heval.1, mapGet_set_self, Option.map_some',
      (finalizeTaskOutputRecord_fields now ev r).2.2.1]
  · intro out
    cases out <;> rfl
  · intro cfg now body ev s k r hpc hie hfm
    unfold handleComplete
    have hfm' : findMatchingAgentEntry
        ({ s with lastEventTime := now }).agents ev.tool_use_id ev.agent_id =
        some (k, r) := hfm
    simp only [hpc, hfm', addMessage_eval]
    unfold scheduleAutoReset
    simp only [hie]
    rw [mapGet_set_self]
    simp

/-- Witness for the amended C10: hook post with output `"ok"` on a running
record, and a `/complete` with no `is_error` on a running record. -/
theorem errorClassification_spec_witness :
    ((mapGet (handleHookEvent cfgD mkD 500
        ⟨"s1", Phase.post, "Task", some "a1", [], some "ok", none⟩
        ⟨[("a1", recRunning)], [], 0, SessionUsage.zero, 0, 0,
         false⟩).agents "a1").map (fun q => q.status) =
      some (if isError none (some "ok") then Status.errored
            else Status.completed)) ∧
    ((mapGet (handleHookEvent cfgD mkD 500
        ⟨"s1", Phase.post, "TaskOutput", none,
         [("task_id", Json.str "bg1")], some "ok", none⟩
        ⟨[("b1", recBgRunning)], [], 0, SessionUsage.zero, 0, 0,
         false⟩).agents "b1").map (fun q => q.status) =
      some (if isError none (some "ok") then Status.errored
            else Status.completed)) ∧
    isError none (some "ok") =
      testErrorPattern (strLower (strTake "ok" 500)) ∧
    ((mapGet (handleComplete cfgD 500
        (Json.obj [("tool_use_id", Json.str "a1")])
        ⟨[("a1", recRunning)], [], 0, SessionUsage.zero, 0, 0,
         false⟩).1.agents "a1").map (fun q => q.status) =
      some Status.completed) := by
  have h := errorClassification_spec
  refine ⟨?_, ?_, h.2.2.1 (some "ok"), ?_⟩
  · exact h.1 cfgD mkD 500
      ⟨"s1", Phase.post, "Task", some "a1", [], some "ok", none⟩
      ⟨[("a1", recRunning)], [], 0, SessionUsage.zero, 0, 0, false⟩
      "a1" recRunning rfl rfl rfl (by decide) (by decide) (by decide)
  · exact h.2.1 cfgD mkD 500
      ⟨"s1", Phase.post, "TaskOutput", none,
       [("task_id", Json.str "bg1")], some "ok", none⟩
      ⟨[("b1", recBgRunning)], [], 0, SessionUsage.zero, 0, 0, false⟩
      "b1" recBgRunning rfl rfl (by decide) (by decide)
  · exact h.2.2.2 cfgD 500 (Json.obj [("tool_use_id", Json.str "a1")])
      ⟨none, none, none, none, none, none, none, some "a1"⟩
      ⟨[("a1", recRunning)], [], 0, SessionUsage.zero, 0, 0, false⟩
      "a1" recRunning rfl rfl (by decide)

/-! ### Claim C5 -/

/-- C5 counterexample: a TaskOutput completion whose wall-clock delta is
5000 ms (not under 1000 ms) still gets its `duration_ms` overridden by the
self-reported usage duration 777 — the TaskOutput channel applies the
override unconditionally (src/src/routes/event.ts line 56), without the
`< 1000` plausibility guard of the generic post path. -/
theorem taskOutputDurationOverride :
    ((mapGet (handleEvent cfgD mkD 5100 (Json.obj
        [("session_id", Json.str "s1"), ("hook_phase", Json.str "post"),
         ("tool_name", Json.str "TaskOutput"),
         ("tool_input", Json.obj [("task_id", Json.str "bg1")]),
         ("tool_output", Json.str "<usage>duration_ms: 777</usage>"),
         ("is_error", Json.bool false)])
        ⟨[("b1", recBgRunning)], [], 0, SessionUsage.zero, 0, 0,
         false⟩).1.agents "b1").map (fun q => q.duration_ms) =
      some (some 777)) ∧
    ¬((5100 : Int) - (100 : Int) < 1000) := by
  constructor
  · rfl
  · decide

/-- C5 (amended): for a generic post-phase completion, `duration_ms` is the
wall-clock delta, overridden by the self-reported usage duration exactly
when the delta is under 1000 ms and a nonzero usage duration is available;
for the TaskOutput channel, the usage duration overrides the wall-clock
delta whenever a nonzero one is available, with no plausibility guard. -/
theorem duration_spec :
    (∀ (cfg : Config) (mk : String → String → String) (now : Nat)
       (ev : HookEvent) (s : ServerState) (key : String) (r : AgentRecord),
       ev.tool_name = "Task" → ev.hook_phase = Phase.post →
       ev.tool_use_id = some key → key ≠ "" →
       mapGet s.agents key = some r → r.background = false →
       (mapGet (handleHookEvent cfg mk now ev s).agents key).map
           (fun q => q.duration_ms) =
         some (some (match parseUsage ev.tool_output with
           | some u =>
             if (now : Int) - (r.started_at : Int) < 1000 ∧
                 u.duration_ms ≠ 0
             then u.duration_ms
             else (now : Int) - (r.started_at : Int)
           | none => (now : Int) - (r.started_at : Int)))) ∧
    (∀ (cfg : Config) (mk : String → String → String) (now : Nat)
       (ev : HookEvent) (s : ServerState) (k : String) (r : AgentRecord),
       ev.tool_name = "TaskOutput" → ev.hook_phase = Phase.post →
       findTaskOutputAgentEntry s.agents
           (jstrOr (jget ev.tool_input "task_id") "") ev.session_id =
         some (k, r) →
       r.status = Status.running →
       (mapGet (handleHookEvent cfg mk now ev s).agents k).map
           (fun q => q.duration_ms) =
         some (some (match parseUsage ev.tool_output with
           | some u =>
             if u.duration_ms ≠ 0 then u.duration_ms
             else (now : Int) - (r.started_at : Int)
           | none => (now : Int) - (r.started_at : Int)))) := by
  constructor
  · intro cfg mk now ev s key r hname hphase htuid hk hget hbgr
    rw [handleHookEvent_task_post cfg mk now ev s hname hphase,
      eventKey_some mk ev (eventDescription ev) key htuid hk]
    have hres : resolvePostRecord now ev (eventDescription ev) key
        ({ s with lastEventTime := now }).agents =
        (({ s with lastEventTime := now }).agents, r) :=
      resolvePostRecord_hit now ev (eventDescription ev) key _ r hget
    have hbg : isBgLaunch { r with last_activity := now } ev.tool_output =
        false := by
      unfold isBgLaunch
      simp [hbgr]
    have heval := handlePost_eval cfg now ev (eventDescription ev) key
      { s with lastEventTime := now } _ r hres hbg
    rw [heval.1, mapGet_set_self, Option.map_some',
      (finalizePostRecord_fields now ev _).2.2.2.2]
  · intro cfg mk now ev s k r hname hphase hmatch hrun
    rw [handleHookEvent_taskOutput_post cfg mk now ev s hname hphase]
    have hmatch' : findTaskOutputAgentEntry
        ({ s with lastEventTime := now }).agents
        (jstrOr (jget ev.tool_input "task_id") "") ev.session_id =
        some (k, r) := hmatch
    have heval := handleTaskOutput_eval cfg now ev
      { s with lastEventTime := now } k r hmatch' hrun
    rw [heval.1, mapGet_set_self, Option.map_some',
      (finalizeTaskOutputRecord_fields now ev r).2.2.2]

/-- Witness for the amended C5: generic post on a running record at wall
delta 400 ms with no usage block, and TaskOutput on a running background
record at wall delta 5000 ms with a usage duration. -/
theorem duration_spec_witness :
    ((mapGet (handleHookEvent cfgD mkD 500
        ⟨"s1", Phase.post, "Task", some "a1", [], some "ok", none⟩
        ⟨[("a1", recRunning)], [], 0, SessionUsage.zero, 0, 0,
         false⟩).agents "a1").map (fun q => q.duration_ms) =
      some (some (match parseUsage (some "ok") with
        | some u =>
          if (500 : Int) - (100 : Int) < 1000 ∧ u.duration_ms ≠ 0
          then u.duration_ms
          else (500 : Int) - (100 : Int)
        | none => (500 : Int) - (100 : Int)))) ∧
    ((mapGet (handleHookEvent cfgD mkD 5100
        ⟨"s1", Phase.post, "TaskOutput", none,
         [("task_id", Json.str "bg1")],
         some "<usage>duration_ms: 777</usage>", some false⟩
        ⟨[("b1", recBgRunning)], [], 0, SessionUsage.zero, 0, 0,
         false⟩).agents "b1").map (fun q => q.duration_ms) =
      some (some (match parseUsage
          (some "<usage>duration_ms: 777</usage>") with
        | some u =>
          if u.duration_ms ≠ 0 then u.duration_ms
          else (5100 : Int) - (100 : Int)
        | none => (5100 : Int) - (100 : Int)))) := by
  constructor
  · exact duration_spec.1 cfgD mkD 500
      ⟨"s1", Phase.post, "Task", some "a1", [], some "ok", none⟩
      ⟨[("a1", recRunning)], [], 0, SessionUsage.zero, 0, 0, false⟩
      "a1" recRunning rfl rfl rfl (by decide) (by decide) (by decide)
  · exact duration_spec.2 cfgD mkD 5100
      ⟨"s1", Phase.post, "TaskOutput", none,
       [("task_id", Json.str "bg1")],
       some "<usage>duration_ms: 777</usage>", some false⟩
      ⟨[("b1", recBgRunning)], [], 0, SessionUsage.zero, 0, 0, false⟩
      "b1" recBgRunning rfl rfl (by decide) (by decide)

/-! ### Claim C1 -/

/-- C1 counterexample: replaying a post event for the already-completed
record `c1` appends another Response message, increments
`SessionUsage.agent_count` again, and a replay carrying `is_error: true`
moves the record out of `completed` into `errored` — the generic post path
has no terminal-status guard (src/src/routes/event.ts lines 119–206). -/
theorem terminalReplayDoubleCounts :
    ((handleEvent cfgD mkD 500 (Json.obj
        [("session_id", Json.str "s1"), ("hook_phase", Json.str "post"),
         ("tool_name", Json.str "Task"), ("tool_use_id", Json.str "c1"),
         ("tool_output", Json.str "done")])
        ⟨[("c1", recCompleted)], [], 0, SessionUsage.zero, 0, 0,
         false⟩).1.messages.length = 1) ∧
    ((handleEvent cfgD mkD 500 (Json.obj
        [("session_id", Json.str "s1"), ("hook_phase", Json.str "post"),
         ("tool_name", Json.str "Task"), ("tool_use_id", Json.str "c1"),
         ("tool_output", Json.str "done")])
        ⟨[("c1", recCompleted)], [], 0, SessionUsage.zero, 0, 0,
         false⟩).1.sessionUsage.agent_count = 1) ∧
    recCompleted.status = Status.completed ∧
    ((mapGet (handleEvent cfgD mkD 500 (Json.obj
        [("session_id", Json.str "s1"), ("hook_phase", Json.str "post"),
         ("tool_name", Json.str "Task"), ("tool_use_id", Json.str "c1"),
         ("tool_output", Json.str "done"), ("is_error", Json.bool true)])
        ⟨[("c1", recCompleted)], [], 0, SessionUsage.zero, 0, 0,
         false⟩).1.agents "c1").map (fun q => q.status) =
      some Status.errored) :=
  ⟨rfl, rfl, rfl, rfl⟩

/-- C1 (amended): the TaskOutput channel never re-finalizes a terminal
record — its matcher only returns running records, so a TaskOutput post
event on a registry with no running agent changes nothing except
`lastEventTime`.  The generic Task post-phase path, by contrast,
re-finalizes whatever record the key resolves to, terminal or not:
it appends another Response message and increments `SessionUsage` again. -/
theorem terminalReplay_spec :
    (∀ (cfg : Config) (mk : String → String → String) (now : Nat)
       (ev : HookEvent) (s : ServerState),
       ev.tool_name = "TaskOutput" → ev.hook_phase = Phase.post →
       (∀ p ∈ s.agents, p.2.status ≠ Status.running) →
       handleHookEvent cfg mk now ev s = { s with lastEventTime := now }) ∧
    (∀ (cfg : Config) (mk : String → String → String) (now : Nat)
       (ev : HookEvent) (s : ServerState) (key : String) (r : AgentRecord),
       ev.tool_name = "Task" → ev.hook_phase = Phase.post →
       ev.tool_use_id = some key → key ≠ "" →
       mapGet s.agents key = some r → r.background = false →
       (handleHookEvent cfg mk now ev s).sessionUsage.agent_count =
         s.sessionUsage.agent_count + 1 ∧
       (handleHookEvent cfg mk now ev s).messages =
         (s.messages ++ [(⟨Nat.repr (s.messageCounter + 1), key,
           parentOrUser r.parent_id, "Response", now⟩ : Message)]).drop
           (s.messages.length + 1 - cfg.maxMessages) ∧
       (handleHookEvent cfg mk now ev s).messageCounter =
         s.messageCounter + 1) := by
  constructor
  · intro cfg mk now ev s hname hphase hnorun
    rw [handleHookEvent_taskOutput_post cfg mk now ev s hname hphase]
    exact handleTaskOutput_noRunning cfg now ev _ hnorun
  · intro cfg mk now ev s key r hname hphase htuid hk hget hbgr
    rw [handleHookEvent_task_post cfg mk now ev s hname hphase,
      eventKey_some mk ev (eventDescription ev) key htuid hk]
    have hres : resolvePostRecord now ev (eventDescription ev) key
        ({ s with lastEventTime := now }).agents =
        (({ s with lastEventTime := now }).agents, r) :=
      resolvePostRecord_hit now ev (eventDescription ev) key _ r hget
    have hbg : isBgLaunch { r with last_activity := now } ev.tool_output =
        false := by
      unfold isBgLaunch
      simp [hbgr]
    have heval := handlePost_eval cfg now ev (eventDescription ev) key
      { s with lastEventTime := now } _ r hres hbg
    refine ⟨?_, heval.2.1, heval.2.2.1⟩
    rw [heval.2.2.2.1]
    exact bumpSessionUsage_agent_count _ _

/-- Witness for the amended C1: a TaskOutput post over a registry holding
only the completed agent leaves everything but `lastEventTime` unchanged,
while a Task post resolving the completed agent by key double-counts. -/
theorem terminalReplay_spec_witness :
    handleHookEvent cfgD mkD 500
        ⟨"s1", Phase.post, "TaskOutput", none, [], some "done", none⟩
        ⟨[("c1", recCompleted)], [], 0, SessionUsage.zero, 0, 0, false⟩ =
      { (⟨[("c1", recCompleted)], [], 0, SessionUsage.zero, 0, 0, false⟩ :
          ServerState) with lastEventTime := 500 } ∧
    (handleHookEvent cfgD mkD 500
        ⟨"s1", Phase.post, "Task", some "c1", [], some "done", none⟩
        ⟨[("c1", recCompleted)], [], 0, SessionUsage.zero, 0, 0,
         false⟩).sessionUsage.agent_count = 0 + 1 := by
  constructor
  · exact terminalReplay_spec.1 cfgD mkD 500
      ⟨"s1", Phase.post, "TaskOutput", none, [], some "done", none⟩
      ⟨[("c1", recCompleted)], [], 0, SessionUsage.zero, 0, 0, false⟩
      rfl rfl (by decide)
  · exact (terminalReplay_spec.2 cfgD mkD 500
      ⟨"s1", Phase.post, "Task", some "c1", [], some "done", none⟩
      ⟨[("c1", recCompleted)], [], 0, SessionUsage.zero, 0, 0, false⟩
      "c1" recCompleted rfl rfl rfl (by decide) (by decide) (by decide)).1

theorem handlePre_agents_fromEmpty (cfg : Config)
    (mk : String → String → String) (now : Nat) (sess desc K1 : String)
    (hK1 : K1 ≠ "") (hd : desc ≠ "") :
    (handleHookEvent cfg mk now (preEv sess desc K1)
        ServerState.initial).agents =
      [(K1, prePhaseRecord now sess desc K1)] := by
  have hdesc : eventDescription (preEv sess desc K1) = desc := by
    unfold eventDescription preEv jstrOr jget
    simp [hd]
  have hkey : eventKey mk (preEv sess desc K1) desc = K1 :=
    eventKey_some mk _ desc K1 rfl hK1
  rw [handleHookEvent_task_pre cfg mk now _ _ rfl rfl, hdesc, hkey]
  unfold handlePre cancelAutoReset
  rw [addMessage_eval]
  simp [ServerState.initial, anyRunning, mapSet, findDeepestRunningAgent,
    findDeepestRun, preEv, jget, jstrOr, jtruthy, prePhaseRecord]

theorem handlePost_rekey_eval (cfg : Config)
    (mk : String → String → String) (now : Nat)
    (sess desc K1 K2 : String) (out : Option String) (ie : Option Bool)
    (r0 : AgentRecord) (s : ServerState)
    (hK2 : K2 ≠ "") (hne : K1 ≠ K2) (hd : desc ≠ "")
    (hagents : s.agents = [(K1, r0)])
    (hsess : r0.session_id = sess) (hdesc0 : r0.description = desc)
    (hmatchable : r0.status = Status.running ∨
      (r0.status = Status.errored ∧ r0.error = some restartErrorMsg))
    (hbg0 : r0.background = false) :
    mapGet (handleHookEvent cfg mk now (postEv sess desc K2 out ie)
      s).agents K1 = none ∧
    (∃ r, mapGet (handleHookEvent cfg mk now (postEv sess desc K2 out ie)
        s).agents K2 = some r ∧ r.id = K2 ∧
      r.status = (if isError ie out then Status.errored
                  else Status.completed)) := by
  have hdesc : eventDescription (postEv sess desc K2 out ie) = desc := by
    unfold eventDescription postEv jstrOr jget
    simp [hd]
  have hkey : eventKey mk (postEv sess desc K2 out ie) desc = K2 :=
    eventKey_some mk _ desc K2 rfl hK2
  rw [handleHookEvent_task_post cfg mk now _ s rfl rfl, hdesc, hkey]
  have hget2 : mapGet ({ s with lastEventTime := now }).agents K2 = none := by
    show mapGet s.agents K2 = none
    rw [hagents, mapGet_cons, if_neg hne, mapGet_nil]
  have hfind : ({ s with lastEventTime := now }).agents.find? (fun p =>
      decide (p.2.session_id = (postEv sess desc K2 out ie).session_id) &&
      decide (p.2.description = desc) &&
      (decide (p.2.status = Status.running) ||
       (decide (p.2.status = Status.errored) &&
        decide (p.2.error = some restartErrorMsg)))) = some (K1, r0) := by
    show s.agents.find? _ = some (K1, r0)
    rw [hagents]
    have hpred : (decide (r0.session_id =
        (postEv sess desc K2 out ie).session_id) &&
        decide (r0.description = desc) &&
        (decide (r0.status = Status.running) ||
         (decide (r0.status = Status.errored) &&
          decide (r0.error = some restartErrorMsg)))) = true := by
      rcases hmatchable with hm | ⟨hm1, hm2⟩
      · simp [postEv, hsess, hdesc0, hm]
      · simp [postEv, hsess, hdesc0, hm1, hm2]
    simp only [List.find?_cons, hpred]
  have hres := resolvePostRecord_rekey now (postEv sess desc K2 out ie)
    desc K2 ({ s with lastEventTime := now }).agents K1 r0 hget2 hfind
  have hbg : isBgLaunch { { r0 with id := K2 } with last_activity := now }
      (postEv sess desc K2 out ie).tool_output = false := by
    unfold isBgLaunch
    simp [hbg0]
  have heval := handlePost_eval cfg now (postEv sess desc K2 out ie) desc K2
    { s with lastEventTime := now } _ _ hres hbg
  constructor
  · rw [heval.1, mapGet_set_ne _ _ hne, mapGet_set_ne _ _ hne,
      mapGet_delete_self]
  · refine ⟨_, by rw [heval.1, mapGet_set_self], ?_, ?_⟩
    · rw [(finalizePostRecord_fields now _ _).1]
    · rw [(finalizePostRecord_fields now _ _).2.2.2.1]
      simp [postEv]

/-! ### Claim C2 -/

/-- C2: a pre event creating a record under K1 from an empty registry,
followed by a post event under a different key K2 with the same session and
description, re-keys the record: K1 is gone, K2 holds the record with
`id = K2` and a status reflecting the post outcome.  The same holds when the
record under K1 is errored with the restart diagnostic (the restart-recovery
fallback). -/
theorem rekey_spec :
    (∀ (cfg : Config) (mk : String → String → String) (now1 now2 : Nat)
       (sess desc K1 K2 : String) (out : Option String) (ie : Option Bool),
       K1 ≠ "" → K2 ≠ "" → K1 ≠ K2 → desc ≠ "" →
       mapGet (handleHookEvent cfg mk now2 (postEv sess desc K2 out ie)
         (handleHookEvent cfg mk now1 (preEv sess desc K1)
           ServerState.initial)).agents K1 = none ∧
       (∃ r, mapGet (handleHookEvent cfg mk now2 (postEv sess desc K2 out ie)
           (handleHookEvent cfg mk now1 (preEv sess desc K1)
             ServerState.initial)).agents K2 = some r ∧ r.id = K2 ∧
         r.status = (if isError ie out then Status.errored
                     else Status.completed))) ∧
    (∀ (cfg : Config) (mk : String → String → String) (now : Nat)
       (sess desc K1 K2 : String) (out : Option String) (ie : Option Bool)
       (r0 : AgentRecord) (s : ServerState),
       K2 ≠ "" → K1 ≠ K2 → desc ≠ "" →
       s.agents = [(K1, r0)] →
       r0.session_id = sess → r0.description = desc →
       r0.status = Status.errored → r0.error = some restartErrorMsg →
       r0.background = false →
       mapGet (handleHookEvent cfg mk now (postEv sess desc K2 out ie)
         s).agents K1 = none ∧
       (∃ r, mapGet (handleHookEvent cfg mk now (postEv sess desc K2 out ie)
           s).agents K2 = some r ∧ r.id = K2 ∧
         r.status = (if isError ie out then Status.errored
                     else Status.completed))) := by
  constructor
  · intro cfg mk now1 now2 sess desc K1 K2 out ie hK1 hK2 hne hd
    exact handlePost_rekey_eval cfg mk now2 sess desc K1 K2 out ie
      (prePhaseRecord now1 sess desc K1) _ hK2 hne hd
      (handlePre_agents_fromEmpty cfg mk now1 sess desc K1 hK1 hd)
      rfl rfl (Or.inl rfl) rfl
  · intro cfg mk now sess desc K1 K2 out ie r0 s hK2 hne hd hagents hsess
      hdesc0 hst herr hbg0
    exact handlePost_rekey_eval cfg mk now sess desc K1 K2 out ie r0 s
      hK2 hne hd hagents hsess hdesc0 (Or.inr ⟨hst, herr⟩) hbg0

/-- Witness for C2: pre under k1 then post under k2 from the empty registry,
and the restart-errored variant. -/
theorem rekey_spec_witness :
    (mapGet (handleHookEvent cfgD mkD 20 (postEv "s1" "d1" "k2"
        (some "done") none)
      (handleHookEvent cfgD mkD 10 (preEv "s1" "d1" "k1")
        ServerState.initial)).agents "k1" = none ∧
     (∃ r, mapGet (handleHookEvent cfgD mkD 20 (postEv "s1" "d1" "k2"
          (some "done") none)
        (handleHookEvent cfgD mkD 10 (preEv "s1" "d1" "k1")
          ServerState.initial)).agents "k2" = some r ∧ r.id = "k2" ∧
       r.status = (if isError none (some "done") then Status.errored
                   else Status.completed))) ∧
    (mapGet (handleHookEvent cfgD mkD 30 (postEv "s1" "d1" "k2"
        (some "done") none)
      ⟨[("k1", recRestartErrored)], [], 0,
       SessionUsage.zero, 0, 0, false⟩).agents "k1" = none ∧
     (∃ r, mapGet (handleHookEvent cfgD mkD 30 (postEv "s1" "d1" "k2"
          (some "done") none)
        ⟨[("k1", recRestartErrored)], [], 0,
         SessionUsage.zero, 0, 0, false⟩).agents "k2" = some r ∧
       r.id = "k2" ∧
       r.status = (if isError none (some "done") then Status.errored
                   else Status.completed))) :=
  ⟨rekey_spec.1 cfgD mkD 10 20 "s1" "d1" "k1" "k2" (some "done") none
     (by decide) (by decide) (by decide) (by decide),
   rekey_spec.2 cfgD mkD 30 "s1" "d1" "k1" "k2" (some "done") none
     recRestartErrored
     ⟨[("k1", recRestartErrored)], [], 0,
      SessionUsage.zero, 0, 0, false⟩
     (by decide) (by decide) (by decide) rfl (by decide) (by decide)
     (by decide) (by decide) (by decide)⟩

end AgentViz
